import Mathlib

/-!
Shallow embedding of the nudge-repo ingestion pipeline (FastAPI + worker).

Text is modelled as `List Char` (Python strings are sequences of code
points).  Database rows are Lean structures mirroring `app/models/mvp.py`;
the transactional operations of `app/api/items.py` and
`app/worker/worker.py` become pure functions on an explicit `DB` state.
External libraries (httpx, trafilatura, BeautifulSoup, urllib, bytes
decoding) are modelled as abstract function parameters or abstract outcome
data, as noted at each definition.
-/

set_option maxRecDepth 8192

namespace Nudge

/-- Python strings are modelled as lists of characters. -/
abbrev PyStr := List Char

/-- Convert a Lean string literal to the `PyStr` model. -/
def str (s : String) : PyStr := s.toList

/-- Python `str.strip()`: remove leading and trailing whitespace. -/
def pyStrip (s : PyStr) : PyStr :=
  ((s.dropWhile Char.isWhitespace).reverse.dropWhile Char.isWhitespace).reverse

/-- Python truthiness of a string: non-empty. -/
def pyTruthy (s : PyStr) : Bool := !s.isEmpty

/-- Python `s or dflt` for strings: `dflt` if `s` is empty. -/
def pyOr (s dflt : PyStr) : PyStr := if s.isEmpty then dflt else s

/-- Python truthiness of an optional string (`None` and `""` are falsy). -/
def optTruthy : Option PyStr → Bool
  | some s => !s.isEmpty
  | none => false

/-- `worker._short_detail(msg, limit=180)`: strip, then clip to the limit with
a `"..."` suffix.  Every call site in the repository uses the default
`limit = 180`, which is therefore fixed here. -/
def _short_detail (msg : PyStr) : PyStr :=
  let m := pyStrip msg
  if m.length ≤ 180 then m else m.take (180 - 3) ++ str "..."

/-- Helper for `pySplitWs`: the accumulator holds the current word reversed.
Models the run of Python's `str.split()` (no separator argument): split on
whitespace runs, dropping empty tokens. -/
def pySplitWsAux : PyStr → PyStr → List PyStr
  | [], acc => if acc.isEmpty then [] else [acc.reverse]
  | c :: rest, acc =>
    if c.isWhitespace then
      if acc.isEmpty then pySplitWsAux rest [] else acc.reverse :: pySplitWsAux rest []
    else pySplitWsAux rest (c :: acc)

/-- Python `s.split()` with no separator. -/
def pySplitWs (s : PyStr) : List PyStr := pySplitWsAux s []

/-- Python `" ".join(ws)`. -/
def pyJoinSpace : List PyStr → PyStr
  | [] => []
  | [w] => w
  | w :: ws => w ++ ' ' :: pyJoinSpace ws

/-- `items._count_words`: `len([w for w in s.split() if w])`. -/
def _count_words (s : PyStr) : Nat :=
  ((pySplitWs s).filter (fun w => !w.isEmpty)).length

/-- `items._truncate_to_words`: keep the first `maxWords` whitespace tokens,
joined by single spaces (`" ".join(words[:max_words])`); return `s` unchanged
when it has at most `maxWords` tokens. -/
def _truncate_to_words (s : PyStr) (maxWords : Nat) : PyStr :=
  let words := (pySplitWs s).filter (fun w => !w.isEmpty)
  if words.length ≤ maxWords then s else pyJoinSpace (words.take maxWords)

/-! ### Lemmas about whitespace splitting -/

/-- Every word produced by `pySplitWsAux` is non-empty and whitespace-free,
provided the accumulator is whitespace-free. -/
theorem pySplitWsAux_words (s : PyStr) :
    ∀ (acc : PyStr), (∀ c ∈ acc, ¬ c.isWhitespace) →
      ∀ w ∈ pySplitWsAux s acc, w ≠ [] ∧ ∀ c ∈ w, ¬ c.isWhitespace := by
  induction s with
  | nil =>
    intro acc hacc w hw
    simp only [pySplitWsAux] at hw
    by_cases h : acc.isEmpty
    · simp [h] at hw
    · simp [h] at hw
      subst hw
      refine ⟨?_, ?_⟩
      · simp [List.isEmpty_iff] at h
        simpa using h
      · intro c hc
        exact hacc c (by simpa using hc)
  | cons c rest ih =>
    intro acc hacc w hw
    simp only [pySplitWsAux] at hw
    by_cases hws : c.isWhitespace
    · simp only [hws, if_true] at hw
      by_cases hacc0 : acc.isEmpty
      · simp only [hacc0, if_true] at hw
        exact ih [] (by simp) w hw
      · simp only [hacc0, if_false] at hw
        rcases List.mem_cons.mp hw with h | h
        · subst h
          refine ⟨?_, ?_⟩
          · simp [List.isEmpty_iff] at hacc0
            simpa using hacc0
          · intro d hd
            exact hacc d (by simpa using hd)
        · exact ih [] (by simp) w h
    · simp only [hws, if_false] at hw
      refine ih (c :: acc) ?_ w hw
      intro d hd
      rcases List.mem_cons.mp hd with h | h
      · subst h; simpa using hws
      · exact hacc d h

/-- Running the splitter over a whitespace-free word prefix just accumulates it. -/
theorem pySplitWsAux_append (w : PyStr) (hword : ∀ c ∈ w, ¬ c.isWhitespace) :
    ∀ (s acc : PyStr), pySplitWsAux (w ++ s) acc = pySplitWsAux s (w.reverse ++ acc) := by
  induction w with
  | nil => intro s acc; simp
  | cons c cs ih =>
    intro s acc
    have hc : ¬ c.isWhitespace := hword c (by simp)
    have hcs : ∀ d ∈ cs, ¬ d.isWhitespace := fun d hd => hword d (by simp [hd])
    simp only [List.cons_append, pySplitWsAux, hc, Bool.false_eq_true, if_false,
      List.append_eq]
    rw [ih hcs s (c :: acc)]
    simp

/-- Splitting the space-join of non-empty whitespace-free words recovers
exactly those words. -/
theorem pySplitWs_joinSpace (ws : List PyStr)
    (h : ∀ w ∈ ws, w ≠ [] ∧ ∀ c ∈ w, ¬ c.isWhitespace) :
    pySplitWs (pyJoinSpace ws) = ws := by
  induction ws with
  | nil => simp [pyJoinSpace, pySplitWs, pySplitWsAux]
  | cons w ws ih =>
    obtain ⟨hw, hwchars⟩ := h w (by simp)
    have hrest : ∀ u ∈ ws, u ≠ [] ∧ ∀ c ∈ u, ¬ c.isWhitespace :=
      fun u hu => h u (by simp [hu])
    cases ws with
    | nil =>
      simp only [pyJoinSpace, pySplitWs]
      rw [show w = w ++ ([] : PyStr) by simp, pySplitWsAux_append w hwchars]
      simp only [pySplitWsAux]
      have : ¬ (w.reverse ++ []).isEmpty := by
        simp [List.isEmpty_iff, hw]
      simp [this, List.isEmpty_iff, hw]
    | cons w' ws' =>
      have hjoin : pyJoinSpace (w :: w' :: ws') = w ++ ' ' :: pyJoinSpace (w' :: ws') := rfl
      simp only [pySplitWs] at ih ⊢
      rw [hjoin, pySplitWsAux_append w hwchars]
      have hsp : (' ' : Char).isWhitespace = true := by decide
      have hne : (w.reverse ++ ([] : PyStr)).isEmpty = false := by
        simp [List.isEmpty_iff, hw]
      simp only [pySplitWsAux, hsp, if_true, hne, if_false]
      rw [ih hrest]
      simp [hw]

/-- Word-counting a space-join of non-empty whitespace-free words gives the
number of words. -/
theorem count_words_joinSpace (ws : List PyStr)
    (h : ∀ w ∈ ws, w ≠ [] ∧ ∀ c ∈ w, ¬ c.isWhitespace) :
    _count_words (pyJoinSpace ws) = ws.length := by
  unfold _count_words
  rw [pySplitWs_joinSpace ws h]
  have : ∀ w ∈ ws, (!w.isEmpty) = true := by
    intro w hw
    simp [List.isEmpty_iff]
    exact (h w hw).1
  rw [List.filter_eq_self.mpr this]

/-- `_truncate_to_words` enforces the word cap. -/
theorem count_words_truncate_le (s : PyStr) (cap : Nat) :
    _count_words (_truncate_to_words s cap) ≤ cap := by
  unfold _truncate_to_words
  by_cases hle : ((pySplitWs s).filter (fun w => !w.isEmpty)).length ≤ cap
  · simpa [hle, _count_words] using hle
  · simp only [hle, if_false]
    have hwords : ∀ w ∈ ((pySplitWs s).filter (fun w => !w.isEmpty)).take cap,
        w ≠ [] ∧ ∀ c ∈ w, ¬ c.isWhitespace := by
      intro w hw
      have hw' : w ∈ (pySplitWs s).filter (fun w => !w.isEmpty) := List.mem_of_mem_take hw
      have hw'' : w ∈ pySplitWs s := List.mem_of_mem_filter hw'
      exact pySplitWsAux_words s [] (by simp) w hw''
    rw [count_words_joinSpace _ hwords]
    simpa using List.length_take_le cap _

/-! ### Data model (`app/models/mvp.py`) -/

/-- `ItemStatus` enum. -/
inductive ItemStatus where
  | queued
  | processing
  | needs_user_text
  | succeeded
  | failed
deriving DecidableEq

/-- `ItemSourceType` enum. -/
inductive ItemSourceType where
  | url
  | pasted_text
deriving DecidableEq

/-- `ItemFinalTextSource` enum. -/
inductive ItemFinalTextSource where
  | extracted_from_url
  | user_pasted_text
deriving DecidableEq

/-- A row of the `items` table.  UUIDs and timestamps are modelled as `Nat`. -/
structure ItemRow where
  id : Nat
  userId : Nat
  status : ItemStatus
  statusDetail : Option PyStr
  sourceType : ItemSourceType
  requestedUrl : Option PyStr
  finalTextSource : Option ItemFinalTextSource
  title : Option PyStr
  createdAt : Nat
  updatedAt : Nat
deriving DecidableEq

instance : Inhabited ItemRow :=
  ⟨⟨0, 0, ItemStatus.queued, none, ItemSourceType.url, none, none, none, 0, 0⟩⟩

/-- A row of the `item_content` table (primary key = `item_id`). -/
structure ItemContentRow where
  itemId : Nat
  userPastedText : Option PyStr
  extractedText : Option PyStr
  canonicalText : Option PyStr
deriving DecidableEq

/-- A row of the `extraction_attempts` table. -/
structure ExtractionAttemptRow where
  itemId : Nat
  attemptNo : Nat
  startedAt : Nat
  finishedAt : Option Nat
  result : PyStr
  errorCode : Option PyStr
  errorDetail : Option PyStr
  httpStatus : Option Nat
  finalUrl : Option PyStr
  contentLength : Option Nat
deriving DecidableEq

/-- The relational state the ingestion pipeline operates on. -/
structure DB where
  items : List ItemRow
  contents : List ItemContentRow
  attempts : List ExtractionAttemptRow
deriving DecidableEq

/-- `SELECT ... FROM items WHERE id = ...` (first match). -/
def DB.getItem (db : DB) (id : Nat) : Option ItemRow :=
  db.items.find? (fun it => it.id == id)

/-- `SELECT ... FROM item_content WHERE item_id = ...` (first match). -/
def DB.getContent (db : DB) (id : Nat) : Option ItemContentRow :=
  db.contents.find? (fun c => c.itemId == id)

/-- Apply a field update to every `items` row with the given id (an ORM
mutation of the loaded row followed by commit). -/
def DB.updateItem (db : DB) (id : Nat) (f : ItemRow → ItemRow) : DB :=
  { db with items := db.items.map (fun it => if it.id == id then f it else it) }

/-- `worker._get_or_create_item_content` followed by field assignment: update
the content row if present, otherwise insert a fresh one and update it. -/
def DB.setContent (db : DB) (id : Nat) (f : ItemContentRow → ItemContentRow) : DB :=
  match db.contents.find? (fun c => c.itemId == id) with
  | some _ => { db with contents := db.contents.map (fun c => if c.itemId == id then f c else c) }
  | none => { db with contents := db.contents ++ [f ⟨id, none, none, none⟩] }

/-- Insert an `ExtractionAttempt` row. -/
def DB.addAttempt (db : DB) (a : ExtractionAttemptRow) : DB :=
  { db with attempts := db.attempts ++ [a] }

/-- `worker._get_next_attempt_no`: `max(attempt_no for the item) + 1`
(`0` when there is none). -/
def _get_next_attempt_no (db : DB) (itemId : Nat) : Nat :=
  ((db.attempts.filter (fun a => a.itemId == itemId)).foldr
    (fun a m => max a.attemptNo m) 0) + 1

/-! ### Summary engine (`app/api/items.py`, C6) -/

/-- `items.MAX_INPUT_CHARS`. -/
def MAX_INPUT_CHARS : Nat := 20000

/-- `items.WORD_CAP`. -/
def WORD_CAP : Nat := 120

/-- `items.PROMPT_VERSION`. -/
def PROMPT_VERSION : PyStr := str "v0"

/-- A row of the `item_summaries` table. -/
structure ItemSummaryRow where
  itemId : Nat
  userId : Nat
  modelKey : PyStr
  provider : Option PyStr
  model : Option PyStr
  promptVersion : PyStr
  inputCharsOriginal : Nat
  inputCharsUsed : Nat
  outputWords : Nat
  summaryText : PyStr
deriving DecidableEq

/-- A row of the `summary_attempts` table. -/
structure SummaryAttemptRow where
  itemId : Nat
  attemptNo : Nat
  modelKey : PyStr
  provider : Option PyStr
  model : Option PyStr
  promptVersion : PyStr
  startedAt : Nat
  finishedAt : Option Nat
  status : PyStr
  errorDetail : Option PyStr
  latencyMs : Option Nat
deriving DecidableEq

/-- Result of `app.llm.client.generate_summary` (external model invocation). -/
structure ModelResult where
  text : PyStr
  provider : Option PyStr
  model : Option PyStr
  latencyMs : Option Nat

/-- The `ItemSummary` row persisted by `create_item_summary` on the success
path (lines 266-268 and 313-332 of `app/api/items.py`): record the original
length, truncate the input to `MAX_INPUT_CHARS`, strip the model output and
enforce the word cap, then count the output words.  The three counters are
`Nat`-valued, matching the non-negative integer columns. -/
def build_summary_row (itemId userId : Nat) (modelKey : PyStr)
    (provider model : Option PyStr) (canonicalText modelText : PyStr) :
    ItemSummaryRow :=
  let inputCharsOriginal := canonicalText.length
  let truncated := canonicalText.take MAX_INPUT_CHARS
  let inputCharsUsed := truncated.length
  let summaryText0 := pyStrip modelText
  let summaryText :=
    if _count_words summaryText0 > WORD_CAP then _truncate_to_words summaryText0 WORD_CAP
    else summaryText0
  { itemId := itemId
    userId := userId
    modelKey := modelKey
    provider := provider
    model := model
    promptVersion := PROMPT_VERSION
    inputCharsOriginal := inputCharsOriginal
    inputCharsUsed := inputCharsUsed
    outputWords := _count_words summaryText
    summaryText := summaryText }

/-- Outcome of the HTTP handler, as seen by the client. -/
inductive SummaryApiResult where
  | ok (body : PyStr)
  | httpError (status : Nat) (detail : PyStr)
deriving DecidableEq

/-- The phase of `create_item_summary` after the `SummaryAttempt` placeholder
reservation (lines 305-376 of `app/api/items.py`), parametrized by the outcome
of the external `generate_summary` call (`Except` models a raised exception).
Returns the HTTP result, the `ItemSummary` row committed (if any), and the
final state of the reserved attempt row (if one was reserved).  The
best-effort separate transaction of the error path is modelled by the attempt
update being independent of the (absent) summary insert. -/
def summary_generation_phase (itemId userId : Nat) (modelKey : PyStr)
    (canonicalText : PyStr) (attemptRow : Option SummaryAttemptRow)
    (gen : Except PyStr ModelResult) (finishedAt : Nat) :
    SummaryApiResult × Option ItemSummaryRow × Option SummaryAttemptRow :=
  match gen with
  | Except.ok result =>
    let row := build_summary_row itemId userId modelKey result.provider result.model
      canonicalText result.text
    let attempt := attemptRow.map (fun a =>
      { a with
        provider := result.provider
        model := result.model
        finishedAt := some finishedAt
        latencyMs := result.latencyMs
        status := str "succeeded"
        errorDetail := none })
    (SummaryApiResult.ok row.summaryText, some row, attempt)
  | Except.error e =>
    let attempt := attemptRow.map (fun a =>
      { a with
        finishedAt := some finishedAt
        status := str "failed"
        errorDetail := some e })
    (SummaryApiResult.httpError 500 (str "Summary generation failed."), none, attempt)

/-! ### Worker configuration and fetcher (`app/worker/worker.py`) -/

/-- `worker.WorkerConfig` with its environment-variable defaults.  The HTTP
timeouts are seconds (floats in the source, integral here; they are opaque to
the control flow). -/
structure WorkerConfig where
  pollSeconds : Nat := 3
  batchSize : Nat := 5
  connectTimeout : Nat := 5
  readTimeout : Nat := 20
  maxBytes : Nat := 2000000
  userAgent : PyStr := str "NudgeBot/0.1"
  minChars : Nat := 600
  maxChars : Nat := 200000
  staleProcessingMinutes : Nat := 15
  maxAttempts : Nat := 2

/-- The default `WorkerConfig()`. -/
def default_worker_config : WorkerConfig := {}

/-- `worker.RETRYABLE_HTTP_STATUSES`. -/
def RETRYABLE_HTTP_STATUSES : List Nat := [429, 500, 501, 502, 503, 504]

/-- `worker.NON_RETRYABLE_4XX = set(range(400, 500)) - {408, 429}`, as a
membership predicate. -/
def NON_RETRYABLE_4XX (n : Nat) : Bool :=
  decide (400 ≤ n ∧ n < 500 ∧ n ≠ 408 ∧ n ≠ 429)

/-- `worker.FetchResult`. -/
structure FetchResult where
  ok : Bool
  finalUrl : Option PyStr
  httpStatus : Option Nat
  contentType : Option PyStr
  bodyBytes : Option (List Nat)
  errorCode : Option PyStr
  errorDetail : Option PyStr
  retryable : Bool
deriving DecidableEq

/-- Characters allowed after the first in a URL scheme.
Models `urllib.parse`'s scheme validation. -/
def _is_scheme_char (c : Char) : Bool :=
  c.isAlphanum || c == '+' || c == '-' || c == '.'

/-- Models `urllib.parse.urlparse`'s split of a URL into `(scheme, rest)`:
the text before the first `:` is the scheme if it is a non-empty run of
scheme characters starting with a letter (lower-cased), otherwise the scheme
is empty and nothing is consumed.  `urllib` is external to the repository;
this models the fragment of its behavior `_is_probably_invalid_url` relies
on. -/
def _urlparse_split (url : PyStr) : PyStr × PyStr :=
  let pre := url.takeWhile (fun c => c ≠ ':')
  if pre.length < url.length ∧ pre ≠ [] ∧
      (match pre with
       | c :: cs => c.isAlpha && cs.all _is_scheme_char
       | [] => false) = true then
    (pre.map Char.toLower, url.drop (pre.length + 1))
  else ([], url)

/-- Models `urllib.parse.urlparse`'s netloc extraction: present only when the
remainder after the scheme starts with `//`, and extends to the next
`/`, `?` or `#`. -/
def _urlparse_netloc (rest : PyStr) : PyStr :=
  match rest with
  | '/' :: '/' :: r => r.takeWhile (fun c => c ≠ '/' ∧ c ≠ '?' ∧ c ≠ '#')
  | _ => []

/-- `worker._is_probably_invalid_url`: scheme not `http`/`https`, or empty
netloc. -/
def _is_probably_invalid_url (url : PyStr) : Bool :=
  let parsed := _urlparse_split url
  if ¬ (parsed.1 = str "http" ∨ parsed.1 = str "https") then true
  else if (_urlparse_netloc parsed.2).isEmpty then true
  else false

/-- Abstract outcome of the underlying `httpx` GET for one URL: either an
exception of one of the three classes caught by `fetch_url`, or a response
with its status, final URL after redirects, content-type header and streamed
body chunks.  `httpx` is external to the repository. -/
inductive NetOutcome where
  | exnTimeout (msg : PyStr)
  | exnRequestError (msg : PyStr)
  | exnOther (msg : PyStr)
  | response (status : Nat) (finalUrl : PyStr) (contentType : Option PyStr)
      (chunks : List (List Nat))

/-- The streaming accumulation loop of `fetch_url` (lines 213-228): skip empty
chunks, append, and abort with `none` as soon as the running total exceeds
`maxBytes`. -/
def _read_body (maxBytes : Nat) : List Nat → List (List Nat) → Option (List Nat)
  | data, [] => some data
  | data, chunk :: rest =>
    if chunk.isEmpty then _read_body maxBytes data rest
    else
      let d := data ++ chunk
      if d.length > maxBytes then none
      else _read_body maxBytes d rest

/-- Python's substring test `needle in hay`. -/
def pySubstr (needle : PyStr) : PyStr → Bool
  | [] => needle.isEmpty
  | c :: rest => needle.isPrefixOf (c :: rest) || pySubstr needle rest

/-- The content-type gate of `fetch_url` (line 201): the lower-cased header
must contain `text/html` or `application/xhtml+xml` as a substring. -/
def _ctype_is_html (ctype : PyStr) : Bool :=
  let lc := ctype.map Char.toLower
  pySubstr (str "text/html") lc || pySubstr (str "application/xhtml+xml") lc

/-- `f"http_{status}"`. -/
def http_code (n : Nat) : PyStr := str "http_" ++ (Nat.repr n).toList

/-- `f"Upstream returned HTTP {status}."`. -/
def http_detail (n : Nat) : PyStr :=
  str "Upstream returned HTTP " ++ (Nat.repr n).toList ++ str "."

/-- `worker.fetch_url`, with the network behavior passed as a `NetOutcome`.
Mirrors lines 142-274: invalid-URL rejection, status classification,
content-type gate, streaming byte cap, and the exception mapping of the three
`except` clauses. -/
def fetch_url (url : PyStr) (cfg : WorkerConfig) (net : NetOutcome) : FetchResult :=
  if _is_probably_invalid_url url then
    ⟨false, none, none, none, none, some (str "invalid_url"),
      some (str "URL appears invalid. Please double-check it."), false⟩
  else
    match net with
    | NetOutcome.exnTimeout msg =>
      ⟨false, none, none, none, none, some (str "timeout"),
        some (_short_detail (pyOr msg (str "Request timed out."))), true⟩
    | NetOutcome.exnRequestError msg =>
      ⟨false, none, none, none, none, some (str "connection_error"),
        some (_short_detail (pyOr msg (str "Connection error."))), true⟩
    | NetOutcome.exnOther msg =>
      ⟨false, none, none, none, none, some (str "unexpected_fetch_error"),
        some (_short_detail (pyOr msg (str "Unexpected fetch error."))), false⟩
    | NetOutcome.response status finalUrl ctype chunks =>
      if status ∈ RETRYABLE_HTTP_STATUSES then
        ⟨false, some finalUrl, some status, ctype, none, some (http_code status),
          some (http_detail status), true⟩
      else if NON_RETRYABLE_4XX status then
        ⟨false, some finalUrl, some status, ctype, none, some (http_code status),
          some (http_detail status), false⟩
      else if status = 408 then
        ⟨false, some finalUrl, some status, ctype, none, some (str "timeout"),
          some (str "Request timed out (HTTP 408)."), true⟩
      else if (match ctype with
               | some ct => !(_ctype_is_html ct)
               | none => false) = true then
        ⟨false, some finalUrl, some status, ctype, none, some (str "non_html"),
          some (str "Link does not look like an HTML page (non-HTML content type)."), false⟩
      else
        match _read_body cfg.maxBytes [] chunks with
        | none =>
          ⟨false, some finalUrl, some status, ctype, none,
            some (str "max_bytes_exceeded"), some (str "Page is too large to process."), false⟩
        | some data =>
          ⟨true, some finalUrl, some status, ctype, some data, none, none, false⟩

/-! ### Extractor (`worker.extract_readable_text`) -/

/-- `worker._extract_with_trafilatura`, with the external `trafilatura.extract`
call passed as `primary` (`none` models both a `None` result and a raised
exception): strip a successful result and map an empty result to `none`. -/
def _extract_with_trafilatura (primary : PyStr → Option PyStr) (html : PyStr) :
    Option PyStr :=
  match primary html with
  | some t => let t' := pyStrip t; if t'.isEmpty then none else some t'
  | none => none

/-- The candidate text `extract_readable_text` works with before applying the
character policy: the trafilatura result, falling back to the BeautifulSoup
visible-text extraction (external, passed as `fallback`), then stripped
(line 126). -/
def _extract_base_text (primary : PyStr → Option PyStr) (fallback : PyStr → PyStr)
    (html : PyStr) : PyStr :=
  pyStrip (match _extract_with_trafilatura primary html with
    | some t => t
    | none => fallback html)

/-- `worker.extract_readable_text`: returns `(text?, error_code?)` per
lines 118-136 — `empty_extraction` for empty text, `too_short` below
`min_chars`, truncation to `max_chars` above it, success otherwise. -/
def extract_readable_text (primary : PyStr → Option PyStr)
    (fallback : PyStr → PyStr) (html : PyStr) (cfg : WorkerConfig) :
    Option PyStr × Option PyStr :=
  let text := _extract_base_text primary fallback html
  if text.isEmpty then (none, some (str "empty_extraction"))
  else if text.length < cfg.minChars then (none, some (str "too_short"))
  else if text.length > cfg.maxChars then (some (text.take cfg.maxChars), none)
  else (some text, none)

/-! ### Worker item processing (`worker.process_item` and the runner) -/

/-- The external dependencies `process_item` is parametrized by: the injected
`fetcher` (already applied to the worker config and network behavior), the
`trafilatura.extract` primary extractor, the BeautifulSoup visible-text
fallback, and `bytes.decode("utf-8", errors="replace")`. -/
structure WorkerEnv where
  fetcher : PyStr → FetchResult
  primary : PyStr → Option PyStr
  fallback : PyStr → PyStr
  decode : List Nat → PyStr

/-- The network/CPU phase of `process_item` (lines 411-423): run the extractor
only when the fetch succeeded with a body, returning
`(extracted_text?, extraction_error_code?)`. -/
def extraction_outcome (env : WorkerEnv) (cfg : WorkerConfig) (fetch : FetchResult) :
    Option PyStr × Option PyStr :=
  if fetch.ok then
    match fetch.bodyBytes with
    | some bs => extract_readable_text env.primary env.fallback (env.decode bs) cfg
    | none => (none, none)
  else (none, none)

/-- The failure classification of `process_item` (lines 472-488), returning
`(error_code, error_detail, retryable)`: extraction failures after a
successful fetch are non-retryable with their dedicated messages; fetch
failures keep the fetcher's code, detail and retryable flag. -/
def classify_failure (fetch : FetchResult) (extractionErrorCode : Option PyStr) :
    Option PyStr × Option PyStr × Bool :=
  if fetch.ok then
    let ec := match extractionErrorCode with
      | some e => e
      | none => str "extraction_failed"
    let ed :=
      if ec = str "too_short" then
        str "We couldn\x27t extract enough readable text from this page."
      else if ec = str "empty_extraction" then
        str "We couldn\x27t extract readable text from this page."
      else
        (match fetch.errorDetail with
         | some d => pyOr d (str "Extraction failed.")
         | none => str "Extraction failed.")
    (some ec, some ed, false)
  else (fetch.errorCode, fetch.errorDetail, fetch.retryable)

/-- `error_detail` of the attempt row on the failure path (line 491):
`_short_detail(error_detail or "Error")`. -/
def _attempt_error_detail (ed : Option PyStr) : PyStr :=
  _short_detail (match ed with
    | some d => pyOr d (str "Error")
    | none => str "Error")

/-- The missing-url branch of `process_item` (lines 386-409): record a
`missing_link` attempt and move the item to `needs_user_text`. -/
def process_item_missing_link (now : Nat) (itemId : Nat) (db : DB) : DB :=
  let attemptNo := _get_next_attempt_no db itemId
  let db1 := db.addAttempt
    ⟨itemId, attemptNo, now, some now, str "error", some (str "missing_link"),
      some (str "Missing link on ite."), none, none, none⟩
  db1.updateItem itemId (fun it =>
    { it with
      status := ItemStatus.needs_user_text
      statusDetail := some (str "We couldn\x27t read this link. Please paste the text instead.")
      updatedAt := now })

/-- `worker.process_item`, as a pure state transformer.  The source's two
short transactions run back to back here (single-worker, sequential model):
load and check the item, perform fetch + extraction without locks, recompute
the attempt number, insert the attempt and apply the outcome.  Timestamps are
collapsed to the single instant `now`. -/
def process_item (env : WorkerEnv) (cfg : WorkerConfig) (now : Nat)
    (itemId : Nat) (db : DB) : DB :=
  match db.getItem itemId with
  | none => db
  | some item =>
    if item.sourceType ≠ ItemSourceType.url then db
    else if item.status ≠ ItemStatus.processing then db
    else if ¬ optTruthy item.requestedUrl then process_item_missing_link now itemId db
    else
      let url := item.requestedUrl.getD []
      let fetch := env.fetcher url
      let ext := extraction_outcome env cfg fetch
      let attemptNo := _get_next_attempt_no db itemId
      let attempt : ExtractionAttemptRow :=
        ⟨itemId, attemptNo, now, some now,
          if fetch.ok && optTruthy ext.1 then str "success" else str "error",
          none, none, fetch.httpStatus, fetch.finalUrl,
          fetch.bodyBytes.map List.length⟩
      if fetch.ok && optTruthy ext.1 then
        let db1 := db.setContent itemId (fun c =>
          { c with extractedText := ext.1, canonicalText := ext.1 })
        let db2 := db1.updateItem itemId (fun it =>
          { it with
            finalTextSource := some ItemFinalTextSource.extracted_from_url
            status := ItemStatus.succeeded
            statusDetail := none
            updatedAt := now })
        db2.addAttempt attempt
      else
        let cls := classify_failure fetch ext.2
        let attempt' := { attempt with
          errorCode := cls.1
          errorDetail := some (_attempt_error_detail cls.2.1) }
        if cls.2.2 && decide (attemptNo < cfg.maxAttempts) then
          (db.addAttempt attempt').updateItem itemId (fun it =>
            { it with
              status := ItemStatus.queued
              statusDetail := some (_short_detail (str "retrying: " ++
                (cls.1.getD [])))
              updatedAt := now })
        else
          (db.addAttempt attempt').updateItem itemId (fun it =>
            { it with
              status := ItemStatus.needs_user_text
              statusDetail := some (_short_detail
                (str "We couldn\x27t read this link. Please open it and paste the article text here."))
              updatedAt := now })

/-- `worker.requeue_stale_processing`: items `processing` with `updated_at`
older than the stale threshold go back to `queued`.  The threshold instant
`now - stale_processing_minutes * 60` uses truncated `Nat` subtraction. -/
def requeue_stale_processing (cfg : WorkerConfig) (now : Nat) (db : DB) : DB :=
  let staleBefore := now - cfg.staleProcessingMinutes * 60
  { db with items := db.items.map (fun it =>
      if it.status = ItemStatus.processing ∧ it.updatedAt < staleBefore then
        { it with
          status := ItemStatus.queued
          statusDetail := some (str "requeued after stale processing")
          updatedAt := now }
      else it) }

/-- `worker.claim_batch`: select up to `batch_size` items with
`status=queued AND source_type=url`, oldest first, and mark them
`processing`.  Row locking (`skip_locked`) is a concurrency artefact with no
effect in this sequential model. -/
def claim_batch (cfg : WorkerConfig) (now : Nat) (db : DB) : DB × List Nat :=
  let queuedUrl := db.items.filter (fun it =>
    decide (it.status = ItemStatus.queued ∧ it.sourceType = ItemSourceType.url))
  let sorted := queuedUrl.mergeSort (fun a b => decide (a.createdAt ≤ b.createdAt))
  let claimedIds := (sorted.take cfg.batchSize).map (fun it => it.id)
  ({ db with items := db.items.map (fun it =>
      if it.id ∈ claimedIds then
        { it with
          status := ItemStatus.processing
          statusDetail := some (str "processing")
          updatedAt := now }
      else it) },
   claimedIds)

/-- The internal-error handler wrapped around `process_item` in
`_claim_and_process_batch` (lines 550-579): record an `internal_error`
attempt and move the item to `failed`. -/
def internal_error_handler (now : Nat) (msg : PyStr) (itemId : Nat) (db : DB) : DB :=
  match db.getItem itemId with
  | none => db
  | some _ =>
    let attemptNo := _get_next_attempt_no db itemId
    let db1 := db.addAttempt
      ⟨itemId, attemptNo, now, some now, str "error", some (str "internal_error"),
        some (_short_detail msg), none, none, none⟩
    db1.updateItem itemId (fun it =>
      { it with
        status := ItemStatus.failed
        statusDetail := some (str "Internal error while processing.")
        updatedAt := now })

/-- `worker._claim_and_process_batch` (one worker tick): stale recovery and
batch claim in one short transaction, then each claimed item is processed.
`crashes` abstracts over which `process_item` calls raise an internal
exception (the `except` branch, lines 550-579); a crash replaces the
processing of that item by the internal-error handler. -/
def _claim_and_process_batch (env : WorkerEnv) (cfg : WorkerConfig) (now : Nat)
    (crashes : Nat → Bool) (crashMsg : PyStr) (db : DB) : DB :=
  let db1 := requeue_stale_processing cfg now db
  let claimed := claim_batch cfg now db1
  claimed.2.foldl (fun d i =>
    if crashes i then internal_error_handler now crashMsg i d
    else process_item env cfg now i d) claimed.1

/-! ### API operations (`app/api/items.py`) -/

/-- The validated body of `POST /items`
(`app/schemas/items.py: ItemCreateRequest`). -/
structure ItemCreateRequest where
  url : Option PyStr
  pastedText : Option PyStr
  preferPastedText : Bool

/-- A provided optional field is non-empty and within its length bound. -/
def optValid (bound : Nat) : Option PyStr → Prop
  | some s => s ≠ [] ∧ s.length ≤ bound
  | none => True

instance (bound : Nat) (o : Option PyStr) : Decidable (optValid bound o) :=
  match o with
  | some s => inferInstanceAs (Decidable (s ≠ [] ∧ s.length ≤ bound))
  | none => inferInstanceAs (Decidable True)

/-- The pydantic validation of `ItemCreateRequest`: provided fields are
non-empty (`min_length=1`, with `url` capped at 4096 and `pasted_text` at
200,000 characters) and at least one of them is present. -/
def ItemCreateRequest.valid (req : ItemCreateRequest) : Prop :=
  optValid 4096 req.url ∧ optValid 200000 req.pastedText ∧
  (req.url ≠ none ∨ req.pastedText ≠ none)

/-- `items.create_item` (lines 58-113): the paste path creates a `succeeded`
`pasted_text` item whose canonical text is the paste; the url path creates a
`queued` `url` item keeping any paste as fallback content.  Returns the new
state and the created row.  The dev-mode background worker nudge is outside
this transaction and not part of the operation. -/
def create_item (req : ItemCreateRequest) (userId newId now : Nat) (db : DB) :
    DB × ItemRow :=
  if optTruthy req.pastedText && (req.preferPastedText || !optTruthy req.url) then
    let item : ItemRow :=
      ⟨newId, userId, ItemStatus.succeeded, none, ItemSourceType.pasted_text,
        none, some ItemFinalTextSource.user_pasted_text, none, now, now⟩
    let content : ItemContentRow := ⟨newId, req.pastedText, none, req.pastedText⟩
    ({ db with items := db.items ++ [item], contents := db.contents ++ [content] }, item)
  else
    let item : ItemRow :=
      ⟨newId, userId, ItemStatus.queued, none, ItemSourceType.url,
        req.url, none, none, now, now⟩
    let content : ItemContentRow := ⟨newId, req.pastedText, none, none⟩
    ({ db with items := db.items ++ [item], contents := db.contents ++ [content] }, item)

/-- `items.patch_item_text` (lines 191-218):`404` when the item is not
visible to the user, `409` unless `status = needs_user_text`, otherwise set
the pasted text as canonical and transition to `succeeded`. -/
def patch_item_text (itemId userId : Nat) (pastedText : PyStr) (now : Nat)
    (db : DB) : Except Nat DB :=
  match db.items.find? (fun it => it.id == itemId && it.userId == userId) with
  | none => Except.error 404
  | some item =>
    if item.status ≠ ItemStatus.needs_user_text then Except.error 409
    else
      let db1 := db.setContent itemId (fun c =>
        { c with userPastedText := some pastedText, canonicalText := some pastedText })
      Except.ok (db1.updateItem itemId (fun it =>
        { it with
          finalTextSource := some ItemFinalTextSource.user_pasted_text
          status := ItemStatus.succeeded
          statusDetail := none
          updatedAt := now }))

/-! ### Keyset pagination (`items.list_items`, lines 116-154) -/

/-- The keyset key `(created_at, id)` of an item. -/
def itemKey (it : ItemRow) : Nat × Nat := (it.createdAt, it.id)

/-- Strict lexicographic order on keys: the SQL predicate
`created_at < c OR (created_at = c AND id < c_id)`. -/
def lexLt (a b : Nat × Nat) : Prop := a.1 < b.1 ∨ (a.1 = b.1 ∧ a.2 < b.2)

instance (a b : Nat × Nat) : Decidable (lexLt a b) := by
  unfold lexLt; infer_instance

/-- The comparator realizing `ORDER BY created_at DESC, id DESC`: `a` comes
before `b` when its key is not lexicographically smaller. -/
def orderDesc (a b : ItemRow) : Bool := !decide (lexLt (itemKey a) (itemKey b))

/-- The single query of `list_items` without cursor or limit: the user's
items ordered by `(created_at DESC, id DESC)`. -/
def query_sorted (db : DB) (userId : Nat) : List ItemRow :=
  (db.items.filter (fun it => it.userId == userId)).mergeSort orderDesc

/-- The query restricted by the decoded cursor: strictly older than the
cursor tuple.  The cursor is carried as the decoded `(created_at, id)` pair;
its textual `<iso>|<uuid>` serialization is external formatting. -/
def cursor_filtered (db : DB) (userId : Nat) (cursor : Option (Nat × Nat)) :
    List ItemRow :=
  match cursor with
  | none => query_sorted db userId
  | some c => (query_sorted db userId).filter (fun it => decide (lexLt (itemKey it) c))

/-- `items.list_items`: fetch `limit + 1` rows; when more than `limit` arrive,
emit the key of `rows[limit - 1]` (the last returned row) as the next cursor
and return the first `limit` rows. -/
def list_items (db : DB) (userId : Nat) (limit : Nat)
    (cursor : Option (Nat × Nat)) : List ItemRow × Option (Nat × Nat) :=
  let filtered := cursor_filtered db userId cursor
  let rows := filtered.take (limit + 1)
  if rows.length > limit then
    (rows.take limit, some (itemKey (rows.getD (limit - 1) default)))
  else (rows, none)

/-- A client following `next_cursor` from page to page, concatenating the
returned rows.  `fuel` bounds the number of requests. -/
def follow_pages (db : DB) (userId : Nat) (limit : Nat) :
    Nat → Option (Nat × Nat) → List ItemRow
  | 0, _ => []
  | Nat.succ fuel, cursor =>
    let res := list_items db userId limit cursor
    match res.2 with
    | none => res.1
    | some c => res.1 ++ follow_pages db userId limit fuel (some c)

/-! ### Committed operations and the succeeded-item invariant (C2) -/

/-- Whether a contents table carries a non-empty canonical text for the id. -/
def contentHasText (contents : List ItemContentRow) (id : Nat) : Bool :=
  match contents.find? (fun c => c.itemId == id) with
  | some c =>
    match c.canonicalText with
    | some t => !t.isEmpty
    | none => false
  | none => false

/-- Whether the item's content row carries a non-empty canonical text. -/
def canonicalNonEmpty (db : DB) (id : Nat) : Bool :=
  contentHasText db.contents id

/-- Invariant 2 of the spec: a `succeeded` item has a non-empty
`canonical_text` and a set `final_text_source`. -/
def SucceededInv (db : DB) : Prop :=
  ∀ it ∈ db.items, it.status = ItemStatus.succeeded →
    canonicalNonEmpty db it.id = true ∧ it.finalTextSource ≠ none

instance (db : DB) : Decidable (SucceededInv db) := by
  unfold SucceededInv; infer_instance

/-- The committed operations that can touch an item's status or content:
item creation, the API text patch, and one `process_item` call of the
worker. -/
inductive StoreOp where
  | create (req : ItemCreateRequest) (userId newId now : Nat)
  | patchText (itemId userId : Nat) (pastedText : PyStr) (now : Nat)
  | worker (env : WorkerEnv) (cfg : WorkerConfig) (now itemId : Nat)

/-- Apply a committed operation to the state (rejected requests leave the
state unchanged). -/
def StoreOp.apply : StoreOp → DB → DB
  | StoreOp.create req userId newId now, db => (create_item req userId newId now db).1
  | StoreOp.patchText itemId userId pastedText now, db =>
    match patch_item_text itemId userId pastedText now db with
    | Except.ok db' => db'
    | Except.error _ => db
  | StoreOp.worker env cfg now itemId, db => process_item env cfg now itemId db

/-- Preconditions under which an operation commits against `db`: request
bodies have passed the pydantic schemas (`ItemCreateRequest`,
`ItemTextPatchRequest` with `min_length=1`), and a created item's UUID is
fresh (its content primary key does not collide, as the database's key
uniqueness guarantees). -/
def StoreOp.valid (db : DB) : StoreOp → Prop
  | StoreOp.create req _ newId _ => req.valid ∧ db.getContent newId = none
  | StoreOp.patchText _ _ pastedText _ => pastedText ≠ [] ∧ pastedText.length ≤ 200000
  | StoreOp.worker _ _ _ _ => True

/-! ### C6: summary row size bounds -/

/-- C6: every `ItemSummary` row persisted by `create_item_summary` satisfies
`output_words ≤ 120` (the model output is truncated to its first 120
whitespace tokens when longer), `input_chars_used ≤ 20000` (the first
`MAX_INPUT_CHARS` characters of the canonical text), and
`input_chars_used ≤ input_chars_original`; the three counters are `Nat`s and
hence non-negative. -/
theorem summary_row_bounds (itemId userId : Nat) (modelKey : PyStr)
    (provider model : Option PyStr) (canonicalText modelText : PyStr) :
    (build_summary_row itemId userId modelKey provider model canonicalText
        modelText).outputWords ≤ WORD_CAP ∧
    (build_summary_row itemId userId modelKey provider model canonicalText
        modelText).inputCharsUsed ≤ MAX_INPUT_CHARS ∧
    (build_summary_row itemId userId modelKey provider model canonicalText
        modelText).inputCharsUsed ≤
      (build_summary_row itemId userId modelKey provider model canonicalText
        modelText).inputCharsOriginal := by
  unfold build_summary_row
  refine ⟨?_, ?_, ?_⟩
  · by_cases h : _count_words (pyStrip modelText) > WORD_CAP
    · simpa [h] using count_words_truncate_le (pyStrip modelText) WORD_CAP
    · simpa [h] using Nat.le_of_not_lt h
  · simpa [List.length_take] using Nat.min_le_left MAX_INPUT_CHARS canonicalText.length
  · simpa [List.length_take] using Nat.min_le_right MAX_INPUT_CHARS canonicalText.length

/-! ### C5: extraction character policy -/

/-- C5: for every decoded HTML string, `extract_readable_text` returns an
`empty_extraction` or `too_short` error with no text, or a success text of
length at most `max_chars`; candidate text longer than `max_chars` is
truncated to exactly `max_chars` and still returned as success; and any
extraction error after a successful fetch is classified non-retryable by the
worker. -/
theorem extract_readable_text_policy (primary : PyStr → Option PyStr)
    (fallback : PyStr → PyStr) (html : PyStr) (cfg : WorkerConfig)
    (fetch : FetchResult) (hcfg : cfg.minChars ≤ cfg.maxChars) :
    (extract_readable_text primary fallback html cfg =
        (none, some (str "empty_extraction")) ∨
      extract_readable_text primary fallback html cfg =
        (none, some (str "too_short")) ∨
      ∃ s, extract_readable_text primary fallback html cfg = (some s, none) ∧
        s.length ≤ cfg.maxChars) ∧
    ((_extract_base_text primary fallback html).length > cfg.maxChars →
      extract_readable_text primary fallback html cfg =
        (some ((_extract_base_text primary fallback html).take cfg.maxChars), none) ∧
      ((_extract_base_text primary fallback html).take cfg.maxChars).length =
        cfg.maxChars) ∧
    (fetch.ok = true →
      (classify_failure fetch
        (extract_readable_text primary fallback html cfg).2).2.2 = false) := by
  refine ⟨?_, ?_, ?_⟩
  · unfold extract_readable_text
    by_cases h0 : (_extract_base_text primary fallback html).isEmpty
    · simp [h0]
    · by_cases h1 : (_extract_base_text primary fallback html).length < cfg.minChars
      · simp [h0, h1]
      · by_cases h2 : (_extract_base_text primary fallback html).length > cfg.maxChars
        · refine Or.inr (Or.inr ⟨(_extract_base_text primary fallback html).take cfg.maxChars, ?_, ?_⟩)
          · simp [h0, h1, h2]
          · simp [List.length_take]
        · refine Or.inr (Or.inr ⟨_extract_base_text primary fallback html, ?_, ?_⟩)
          · simp [h0, h1, h2]
          · omega
  · intro h2
    have h0 : (_extract_base_text primary fallback html).isEmpty = false := by
      cases hbe : (_extract_base_text primary fallback html).isEmpty
      · rfl
      · exfalso
        rw [List.isEmpty_iff.mp hbe] at h2
        simp at h2
    have h1 : ¬ (_extract_base_text primary fallback html).length < cfg.minChars := by
      omega
    constructor
    · unfold extract_readable_text
      simp [h0, h1, h2]
    · simp [List.length_take]
      omega
  · intro hok
    simp [classify_failure, hok]

/-! ### C9: totality and result invariants of the fetcher -/

/-- C9: `fetch_url` always returns a `FetchResult` (invalid URLs and all three
exception classes are mapped to results — totality is inherent in the
embedding); a failed result carries an error code, and a successful result
carries body bytes and no error code. -/
theorem fetch_url_result_invariants (url : PyStr) (cfg : WorkerConfig)
    (net : NetOutcome) :
    ((fetch_url url cfg net).ok = false → (fetch_url url cfg net).errorCode ≠ none) ∧
    ((fetch_url url cfg net).ok = true →
      (fetch_url url cfg net).bodyBytes ≠ none ∧
      (fetch_url url cfg net).errorCode = none) := by
  unfold fetch_url
  split
  · simp
  · cases net with
    | exnTimeout msg => simp
    | exnRequestError msg => simp
    | exnOther msg => simp
    | response status finalUrl ctype chunks =>
      dsimp only
      split
      · simp
      · split
        · simp
        · split
          · simp
          · split
            · simp
            · split <;> simp

/-- Witness for C9 at a concrete invalid URL. -/
theorem fetch_url_result_invariants_witness :
    (fetch_url (str "notaurl") default_worker_config
      (NetOutcome.exnOther [])).errorCode ≠ none :=
  (fetch_url_result_invariants (str "notaurl") default_worker_config
    (NetOutcome.exnOther [])).1 (by decide)

/-- Concrete extractor and configuration instantiating C5. -/
def c5_primary : PyStr → Option PyStr := fun _ => some (str "abcde")

/-- Concrete fallback extractor for the C5 witness. -/
def c5_fallback : PyStr → PyStr := fun _ => []

/-- Small configuration exercising the truncation branch of C5. -/
def c5_cfg : WorkerConfig := { minChars := 1, maxChars := 3 }

/-- Concrete successful fetch result for the C5 witness. -/
def c5_fetch : FetchResult := ⟨true, none, some 200, none, some [], none, none, false⟩

/-- Witness for C5: a five-character extraction under `max_chars = 3` is
truncated to exactly three characters and returned as success. -/
theorem extract_readable_text_policy_witness :
    extract_readable_text c5_primary c5_fallback [] c5_cfg =
      (some ((_extract_base_text c5_primary c5_fallback []).take c5_cfg.maxChars),
        none) ∧
    ((_extract_base_text c5_primary c5_fallback []).take c5_cfg.maxChars).length =
      c5_cfg.maxChars :=
  (extract_readable_text_policy c5_primary c5_fallback [] c5_cfg c5_fetch
    (by decide)).2.1 (by decide)

/-! ### C4: HTTP status classification of the fetcher -/

/-- Valid URL used by the C4 theorems. -/
def c4_url : PyStr := str "http://example.com/a"

/-- A 505 response with an HTML content type and no body chunks. -/
def c4_net : NetOutcome := NetOutcome.response 505 c4_url (some (str "text/html")) []

/-- C4 counterexample: `fetch_url` proceeds to body handling for HTTP 505
(which is neither in `{429, 500, 501, 502, 503, 504}`, nor 408, nor any other
4xx) and returns a successful `FetchResult` whose `http_status` is 505, not
200 — refuting "proceeds to body handling only for 2xx responses" and "a
successful FetchResult carries http_status 200". -/
theorem fetch_url_classification_counterexample :
    (fetch_url c4_url default_worker_config c4_net).ok = true ∧
    (fetch_url c4_url default_worker_config c4_net).httpStatus = some 505 ∧
    (fetch_url c4_url default_worker_config c4_net).httpStatus ≠ some 200 := by
  decide

/-- C4 amended: statuses in `{429, 500, 501, 502, 503, 504}` yield
`http_<n>` retryable; 408 yields `timeout` retryable; any other 4xx yields
`http_<n>` non-retryable; and `fetch_url` proceeds to body handling for every
remaining status (1xx, 2xx, 3xx and 5xx outside the retryable set), a
successful `FetchResult` carrying that actual status (not necessarily
200). -/
theorem fetch_url_status_classification (url : PyStr) (cfg : WorkerConfig)
    (status : Nat) (finalUrl : PyStr) (ctype : Option PyStr)
    (chunks : List (List Nat)) (hval : _is_probably_invalid_url url = false) :
    (status ∈ RETRYABLE_HTTP_STATUSES →
      fetch_url url cfg (NetOutcome.response status finalUrl ctype chunks) =
        ⟨false, some finalUrl, some status, ctype, none, some (http_code status),
          some (http_detail status), true⟩) ∧
    (status = 408 →
      fetch_url url cfg (NetOutcome.response status finalUrl ctype chunks) =
        ⟨false, some finalUrl, some status, ctype, none, some (str "timeout"),
          some (str "Request timed out (HTTP 408)."), true⟩) ∧
    (NON_RETRYABLE_4XX status = true →
      fetch_url url cfg (NetOutcome.response status finalUrl ctype chunks) =
        ⟨false, some finalUrl, some status, ctype, none, some (http_code status),
          some (http_detail status), false⟩) ∧
    ((fetch_url url cfg (NetOutcome.response status finalUrl ctype chunks)).ok = true →
      (fetch_url url cfg (NetOutcome.response status finalUrl ctype chunks)).httpStatus =
        some status ∧
      status ∉ RETRYABLE_HTTP_STATUSES ∧ NON_RETRYABLE_4XX status = false ∧
      status ≠ 408) := by
  refine ⟨?_, ?_, ?_, ?_⟩
  · intro h
    simp [fetch_url, hval, h]
  · intro h
    subst h
    have h1 : ¬ (408 ∈ RETRYABLE_HTTP_STATUSES) := by decide
    have h2 : NON_RETRYABLE_4XX 408 = false := by decide
    simp [fetch_url, hval, h1, h2]
  · intro h
    have h1 : ¬ (status ∈ RETRYABLE_HTTP_STATUSES) := by
      unfold NON_RETRYABLE_4XX at h
      rw [decide_eq_true_eq] at h
      intro hmem
      simp [RETRYABLE_HTTP_STATUSES] at hmem
      omega
    simp [fetch_url, hval, h1, h]
  · intro hok
    by_cases h1 : status ∈ RETRYABLE_HTTP_STATUSES
    · simp [fetch_url, hval, h1] at hok
    · by_cases h2 : NON_RETRYABLE_4XX status = true
      · simp [fetch_url, hval, h1, h2] at hok
      · by_cases h3 : status = 408
        · subst h3; simp [fetch_url, hval, h1, h2] at hok
        · simp only [Bool.not_eq_true] at h2
          refine ⟨?_, h1, h2, h3⟩
          simp only [fetch_url, hval, Bool.false_eq_true, if_false, h1, h2, h3,
            if_neg, ite_false] at hok ⊢
          split at hok
          · simp at hok
          · split at hok <;> simp_all

/-- Witness for the amended C4 at a concrete 503 response. -/
theorem fetch_url_status_classification_witness :
    fetch_url c4_url default_worker_config (NetOutcome.response 503 c4_url none []) =
      ⟨false, some c4_url, some 503, none, none, some (http_code 503),
        some (http_detail 503), true⟩ :=
  (fetch_url_status_classification c4_url default_worker_config 503 c4_url none []
    (by decide)).1 (by decide)

/-! ### C8: summary error path -/

/-- A reserved `SummaryAttempt` placeholder row. -/
def c8_attempt : SummaryAttemptRow :=
  ⟨1, 1, str "mid", none, none, str "v0", 10, none, str "failed", none, none⟩

/-- A 200-character error message, longer than the 180-character clip. -/
def c8_err : PyStr := List.replicate 200 'x'

/-- C8 counterexample: on a model failure the handler stores the full
`str(e)` as `error_detail`; for a 200-character error this differs from the
clipped short form (`_short_detail`), refuting "error_detail equal to the
clipped short form of the error". -/
theorem summary_error_detail_counterexample :
    (summary_generation_phase 1 1 (str "mid") (str "hello") (some c8_attempt)
        (Except.error c8_err) 11).2.2 =
      some { c8_attempt with
        finishedAt := some 11
        status := str "failed"
        errorDetail := some c8_err } ∧
    c8_err ≠ _short_detail c8_err := by
  constructor
  · rfl
  · decide

/-- C8 amended: if the model invocation raises after the placeholder was
reserved, the handler updates the reserved row to `status=failed` with
`error_detail` equal to the full (unclipped) `str(e)` and `finished_at` set,
in a best-effort separate transaction, returns HTTP 500, and commits no
`ItemSummary` row. -/
theorem summary_generation_error_path (itemId userId : Nat)
    (modelKey canonicalText : PyStr) (a : SummaryAttemptRow) (e : PyStr)
    (finishedAt : Nat) :
    summary_generation_phase itemId userId modelKey canonicalText (some a)
        (Except.error e) finishedAt =
      (SummaryApiResult.httpError 500 (str "Summary generation failed."), none,
       some { a with
         finishedAt := some finishedAt
         status := str "failed"
         errorDetail := some e }) := rfl

/-! ### C10: create with both url and pasted text, prefer_pasted_text=false -/

/-- C10: when both `url` and `pasted_text` are supplied with
`prefer_pasted_text=false`, `create_item` creates a `queued` item with
`source_type=url`, stores the paste as `user_pasted_text` fallback, and
leaves `canonical_text` and `final_text_source` unset. -/
theorem create_item_url_with_paste_fallback (db : DB) (req : ItemCreateRequest)
    (userId newId now : Nat) (u p : PyStr)
    (hu : req.url = some u) (hp : req.pastedText = some p)
    (hpref : req.preferPastedText = false) (hu1 : u ≠ []) (hp1 : p ≠ []) :
    (create_item req userId newId now db).2 =
      ⟨newId, userId, ItemStatus.queued, none, ItemSourceType.url, some u, none,
        none, now, now⟩ ∧
    (create_item req userId newId now db).1.items =
      db.items ++ [(create_item req userId newId now db).2] ∧
    (create_item req userId newId now db).1.contents =
      db.contents ++ [⟨newId, some p, none, none⟩] := by
  have hcond : (optTruthy req.pastedText &&
      (req.preferPastedText || !optTruthy req.url)) = false := by
    rw [hu, hp, hpref]
    simp [optTruthy, List.isEmpty_iff, hu1]
  unfold create_item
  rw [hcond]
  simp [hu, hp]

/-- Concrete request for the C10 witness. -/
def c10_req : ItemCreateRequest := ⟨some (str "http://e.com/x"), some (str "hi"), false⟩

/-- Witness for C10 on an empty database. -/
theorem create_item_url_with_paste_fallback_witness :
    (create_item c10_req 1 7 5 ⟨[], [], []⟩).2 =
      ⟨7, 1, ItemStatus.queued, none, ItemSourceType.url, some (str "http://e.com/x"),
        none, none, 5, 5⟩ ∧
    (create_item c10_req 1 7 5 ⟨[], [], []⟩).1.items =
      ([] : List ItemRow) ++ [(create_item c10_req 1 7 5 ⟨[], [], []⟩).2] ∧
    (create_item c10_req 1 7 5 ⟨[], [], []⟩).1.contents =
      ([] : List ItemContentRow) ++ [⟨7, some (str "hi"), none, none⟩] :=
  create_item_url_with_paste_fallback ⟨[], [], []⟩ c10_req 1 7 5
    (str "http://e.com/x") (str "hi") rfl rfl rfl (by decide) (by decide)

/-! ### Primitive lemmas about the DB operations -/

theorem items_find?_map (g : ItemRow → ItemRow) (hg : ∀ it, (g it).id = it.id)
    (l : List ItemRow) (i : Nat) :
    (l.map g).find? (fun it => it.id == i) =
      (l.find? (fun it => it.id == i)).map g := by
  induction l with
  | nil => rfl
  | cons a t ih =>
    by_cases h : (a.id == i) = true
    · rw [List.map_cons,
        @List.find?_cons_of_pos _ (fun it => it.id == i) (g a) (t.map g)
          (by simpa [hg] using h),
        @List.find?_cons_of_pos _ (fun it => it.id == i) a t h]
      rfl
    · rw [List.map_cons,
        @List.find?_cons_of_neg _ (fun it => it.id == i) (g a) (t.map g)
          (by simpa [hg] using h),
        @List.find?_cons_of_neg _ (fun it => it.id == i) a t h, ih]

theorem contents_find?_map (g : ItemContentRow → ItemContentRow)
    (hg : ∀ c, (g c).itemId = c.itemId) (l : List ItemContentRow) (i : Nat) :
    (l.map g).find? (fun c => c.itemId == i) =
      (l.find? (fun c => c.itemId == i)).map g := by
  induction l with
  | nil => rfl
  | cons a t ih =>
    by_cases h : (a.itemId == i) = true
    · rw [List.map_cons,
        @List.find?_cons_of_pos _ (fun c => c.itemId == i) (g a) (t.map g)
          (by simpa [hg] using h),
        @List.find?_cons_of_pos _ (fun c => c.itemId == i) a t h]
      rfl
    · rw [List.map_cons,
        @List.find?_cons_of_neg _ (fun c => c.itemId == i) (g a) (t.map g)
          (by simpa [hg] using h),
        @List.find?_cons_of_neg _ (fun c => c.itemId == i) a t h, ih]

theorem find?_id_eq {l : List ItemRow} {i : Nat} {r : ItemRow}
    (h : l.find? (fun it => it.id == i) = some r) : r.id = i := by
  have h2 := List.find?_some h
  simpa using h2

theorem find?_itemId_eq {l : List ItemContentRow} {i : Nat} {c : ItemContentRow}
    (h : l.find? (fun c => c.itemId == i) = some c) : c.itemId = i := by
  have h2 := List.find?_some h
  simpa using h2

theorem getItem_updateItem (db : DB) (j : Nat) (f : ItemRow → ItemRow)
    (hf : ∀ it, (f it).id = it.id) (i : Nat) :
    (db.updateItem j f).getItem i =
      (db.getItem i).map (fun it => if it.id == j then f it else it) := by
  unfold DB.updateItem DB.getItem
  exact items_find?_map _ (fun it => by split <;> simp [hf]) db.items i

theorem getItem_updateItem_self (db : DB) (j : Nat) (f : ItemRow → ItemRow)
    (hf : ∀ it, (f it).id = it.id) :
    (db.updateItem j f).getItem j = (db.getItem j).map f := by
  rw [getItem_updateItem db j f hf j]
  unfold DB.getItem
  cases hfind : db.items.find? (fun it => it.id == j) with
  | none => rfl
  | some r =>
    have hr : r.id = j := find?_id_eq hfind
    simp [hr]

theorem getItem_updateItem_ne (db : DB) (j : Nat) (f : ItemRow → ItemRow)
    (hf : ∀ it, (f it).id = it.id) (i : Nat) (hij : i ≠ j) :
    (db.updateItem j f).getItem i = db.getItem i := by
  rw [getItem_updateItem db j f hf i]
  unfold DB.getItem
  cases hfind : db.items.find? (fun it => it.id == i) with
  | none => rfl
  | some r =>
    have hr : r.id = i := find?_id_eq hfind
    simp [hr, hij]

theorem getItem_addAttempt (db : DB) (a : ExtractionAttemptRow) (i : Nat) :
    (db.addAttempt a).getItem i = db.getItem i := rfl

theorem getItem_setContent (db : DB) (j : Nat) (f : ItemContentRow → ItemContentRow)
    (i : Nat) : (db.setContent j f).getItem i = db.getItem i := by
  unfold DB.setContent
  split <;> rfl

theorem getContent_updateItem (db : DB) (j : Nat) (f : ItemRow → ItemRow) (i : Nat) :
    (db.updateItem j f).getContent i = db.getContent i := rfl

theorem getContent_addAttempt (db : DB) (a : ExtractionAttemptRow) (i : Nat) :
    (db.addAttempt a).getContent i = db.getContent i := rfl

theorem getContent_setContent_ne (db : DB) (j : Nat)
    (f : ItemContentRow → ItemContentRow) (hf : ∀ c, (f c).itemId = c.itemId)
    (i : Nat) (hij : i ≠ j) :
    (db.setContent j f).getContent i = db.getContent i := by
  unfold DB.setContent DB.getContent
  cases hfind : db.contents.find? (fun c => c.itemId == j) with
  | some c0 =>
    simp only [hfind]
    rw [contents_find?_map _ (fun c => by split <;> simp [hf]) db.contents i]
    cases hfi : db.contents.find? (fun c => c.itemId == i) with
    | none => rfl
    | some c =>
      have hc : c.itemId = i := find?_itemId_eq hfi
      simp [hc, hij]
  | none =>
    simp only [hfind]
    show (db.contents ++ [f ⟨j, none, none, none⟩]).find? (fun c => c.itemId == i) =
      db.contents.find? (fun c => c.itemId == i)
    rw [List.find?_append]
    have : ([f ⟨j, none, none, none⟩].find? (fun c => c.itemId == i)) = none := by
      have hfj : (f ⟨j, none, none, none⟩).itemId = j := hf _
      have hji : (j == i) = false := by simp [Ne.symm hij]
      simp [List.find?, hfj, hji]
    rw [this]
    simp

theorem getContent_setContent_self (db : DB) (j : Nat)
    (f : ItemContentRow → ItemContentRow) (hf : ∀ c, (f c).itemId = c.itemId) :
    (db.setContent j f).getContent j =
      some (f ((db.getContent j).getD ⟨j, none, none, none⟩)) := by
  unfold DB.setContent DB.getContent
  cases hfind : db.contents.find? (fun c => c.itemId == j) with
  | some c0 =>
    simp only [hfind]
    rw [contents_find?_map _ (fun c => by split <;> simp [hf]) db.contents j]
    rw [hfind]
    have hc : c0.itemId = j := find?_itemId_eq hfind
    simp [hc]
  | none =>
    simp only [hfind]
    show (db.contents ++ [f ⟨j, none, none, none⟩]).find? (fun c => c.itemId == j) =
      some (f ((none : Option ItemContentRow).getD ⟨j, none, none, none⟩))
    rw [List.find?_append, hfind]
    have hfj : ((f ⟨j, none, none, none⟩).itemId == j) = true := by
      rw [hf]; simp
    simp [List.find?, hfj]

/-! ### C1: worker failure transitions -/

/-- C1: for every url item in `processing` handled by `process_item`, the
resulting status is `succeeded` exactly on a successful fetch + extraction;
otherwise it is `queued` when the failure is classified retryable and the
newly computed attempt number is strictly below `max_attempts` (default 2),
and `needs_user_text` in every other case (non-retryable failures, retryable
failures at the attempt bound, and a missing url).  `process_item` never
produces `failed`; that status is reached only through the internal-error
handler wrapped around it in `_claim_and_process_batch`. -/
theorem worker_failure_transitions (env : WorkerEnv) (cfg : WorkerConfig)
    (now itemId : Nat) (db : DB) (item : ItemRow)
    (hfind : db.getItem itemId = some item)
    (hsrc : item.sourceType = ItemSourceType.url)
    (hst : item.status = ItemStatus.processing) :
    ((process_item env cfg now itemId db).getItem itemId).map ItemRow.status =
      some (if optTruthy item.requestedUrl = false then ItemStatus.needs_user_text
        else if (env.fetcher (item.requestedUrl.getD [])).ok &&
            optTruthy (extraction_outcome env cfg
              (env.fetcher (item.requestedUrl.getD []))).1 then
          ItemStatus.succeeded
        else if (classify_failure (env.fetcher (item.requestedUrl.getD []))
              (extraction_outcome env cfg
                (env.fetcher (item.requestedUrl.getD []))).2).2.2 &&
            decide (_get_next_attempt_no db itemId < cfg.maxAttempts) then
          ItemStatus.queued
        else ItemStatus.needs_user_text) ∧
    (∀ s,
      ((process_item env cfg now itemId db).getItem itemId).map ItemRow.status = some s →
      s ≠ ItemStatus.failed) := by
  have hmain :
      ((process_item env cfg now itemId db).getItem itemId).map ItemRow.status =
      some (if optTruthy item.requestedUrl = false then ItemStatus.needs_user_text
        else if (env.fetcher (item.requestedUrl.getD [])).ok &&
            optTruthy (extraction_outcome env cfg
              (env.fetcher (item.requestedUrl.getD []))).1 then
          ItemStatus.succeeded
        else if (classify_failure (env.fetcher (item.requestedUrl.getD []))
              (extraction_outcome env cfg
                (env.fetcher (item.requestedUrl.getD []))).2).2.2 &&
            decide (_get_next_attempt_no db itemId < cfg.maxAttempts) then
          ItemStatus.queued
        else ItemStatus.needs_user_text) := by
    unfold process_item
    rw [hfind]
    dsimp only
    rw [if_neg (by simp [hsrc])]
    rw [if_neg (by simp [hst])]
    by_cases hu : optTruthy item.requestedUrl = true
    · rw [if_neg (by simp [hu])]
      by_cases hok : ((env.fetcher (item.requestedUrl.getD [])).ok &&
          optTruthy (extraction_outcome env cfg
            (env.fetcher (item.requestedUrl.getD []))).1) = true
      · rw [if_pos hok]
        rw [getItem_addAttempt, getItem_updateItem_self, getItem_setContent, hfind]
        · simp [hu, hok]
        · intro it; rfl
      · rw [if_neg hok]
        by_cases hretry : ((classify_failure (env.fetcher (item.requestedUrl.getD []))
              (extraction_outcome env cfg
                (env.fetcher (item.requestedUrl.getD []))).2).2.2 &&
            decide (_get_next_attempt_no db itemId < cfg.maxAttempts)) = true
        · rw [if_pos hretry]
          rw [getItem_updateItem_self, getItem_addAttempt, hfind]
          · simp [hu, hok, hretry]
          · intro it; rfl
        · rw [if_neg hretry]
          rw [getItem_updateItem_self, getItem_addAttempt, hfind]
          · simp [hu, hok, hretry]
          · intro it; rfl
    · rw [if_pos (by simp [hu])]
      unfold process_item_missing_link
      rw [getItem_updateItem_self, getItem_addAttempt, hfind]
      · simp only [Bool.not_eq_true] at hu
        simp [hu]
      · intro it; rfl
  refine ⟨hmain, ?_⟩
  intro s hs
  rw [hmain] at hs
  have hs' := Option.some.inj hs
  subst hs'
  split
  · decide
  · split
    · decide
    · split <;> decide

/-- Concrete database for the C1 witness: one url item in `processing`. -/
def c1_db : DB :=
  ⟨[⟨1, 1, ItemStatus.processing, none, ItemSourceType.url,
      some (str "http://e.com/a"), none, none, 0, 0⟩], [], []⟩

/-- Environment for the C1 witness: the fetcher reports a retryable 503. -/
def c1_env : WorkerEnv :=
  ⟨fun _ => ⟨false, some (str "http://e.com/a"), some 503, none, none,
      some (str "http_503"), some (str "Upstream returned HTTP 503."), true⟩,
    fun _ => none, fun _ => [], fun _ => []⟩

/-- Witness for C1: the first retryable failure under the default
`max_attempts = 2` re-queues the item. -/
theorem worker_failure_transitions_witness :
    ((process_item c1_env default_worker_config 5 1 c1_db).getItem 1).map
      ItemRow.status = some ItemStatus.queued := by
  have h := (worker_failure_transitions c1_env default_worker_config 5 1 c1_db
    ⟨1, 1, ItemStatus.processing, none, ItemSourceType.url,
      some (str "http://e.com/a"), none, none, 0, 0⟩ rfl rfl rfl).1
  rw [h]
  decide

/-! ### C2: the succeeded-item invariant is preserved -/

theorem mem_updateItem_items {db : DB} {j : Nat} {f : ItemRow → ItemRow}
    {x : ItemRow} (hx : x ∈ (db.updateItem j f).items) :
    ∃ y ∈ db.items, x = if y.id == j then f y else y := by
  unfold DB.updateItem at hx
  simp only [List.mem_map] at hx
  obtain ⟨y, hy, hxy⟩ := hx
  exact ⟨y, hy, hxy.symm⟩

theorem items_setContent (db : DB) (j : Nat) (f : ItemContentRow → ItemContentRow) :
    (db.setContent j f).items = db.items := by
  unfold DB.setContent
  split <;> rfl

theorem canonicalNonEmpty_congr {db1 db2 : DB} {i : Nat}
    (h : db1.getContent i = db2.getContent i) :
    canonicalNonEmpty db1 i = canonicalNonEmpty db2 i := by
  unfold canonicalNonEmpty contentHasText
  unfold DB.getContent at h
  rw [h]

theorem canonicalNonEmpty_true_of {db1 db2 : DB} {i : Nat}
    (h : db1.getContent i = db2.getContent i)
    (h2 : canonicalNonEmpty db2 i = true) : canonicalNonEmpty db1 i = true := by
  rw [canonicalNonEmpty_congr h]
  exact h2

theorem contentHasText_append {l : List ItemContentRow} {newc : ItemContentRow}
    {i : Nat} (h : contentHasText l i = true) :
    contentHasText (l ++ [newc]) i = true := by
  unfold contentHasText at h ⊢
  cases hf : l.find? (fun c => c.itemId == i) with
  | none => rw [hf] at h; simp at h
  | some c =>
    rw [hf] at h
    rw [List.find?_append, hf]
    simpa using h

theorem canonicalNonEmpty_of_getContent {db : DB} {i : Nat} {c : ItemContentRow}
    (h : db.getContent i = some c) {t : PyStr} (ht : c.canonicalText = some t)
    (hne : t ≠ []) : canonicalNonEmpty db i = true := by
  unfold canonicalNonEmpty contentHasText
  unfold DB.getContent at h
  rw [h]
  show (match c.canonicalText with
    | some t => !t.isEmpty
    | none => false) = true
  rw [ht]
  simp [List.isEmpty_iff, hne]

/-- C2 for `create_item`. -/
theorem succeededInv_create (req : ItemCreateRequest) (userId newId now : Nat)
    (db : DB) (hInv : SucceededInv db) (hval : req.valid)
    (hfresh : db.getContent newId = none) :
    SucceededInv (create_item req userId newId now db).1 := by
  have hnewContent : ∀ (content : ItemContentRow), content.itemId = newId →
      ∀ {t : PyStr}, content.canonicalText = some t → t ≠ [] →
      contentHasText (db.contents ++ [content]) newId = true := by
    intro content hcid t hct hne
    unfold contentHasText
    unfold DB.getContent at hfresh
    rw [List.find?_append, hfresh]
    have : (content.itemId == newId) = true := by simp [hcid]
    simp [List.find?, this, hct, List.isEmpty_iff, hne]
  unfold create_item
  by_cases hcond : (optTruthy req.pastedText &&
      (req.preferPastedText || !optTruthy req.url)) = true
  · rw [if_pos hcond]
    dsimp only
    intro it hit hsucc
    dsimp only at hit
    rcases List.mem_append.mp hit with hold | hnew
    · obtain ⟨hc, hf⟩ := hInv it hold hsucc
      exact ⟨contentHasText_append hc, hf⟩
    · have hit' : it = ⟨newId, userId, ItemStatus.succeeded, none,
          ItemSourceType.pasted_text, none, some ItemFinalTextSource.user_pasted_text,
          none, now, now⟩ := by simpa using hnew
      subst hit'
      refine ⟨?_, by simp⟩
      have hp : optTruthy req.pastedText = true := by
        have h := hcond
        rw [Bool.and_eq_true] at h
        exact h.1
      cases hpt : req.pastedText with
      | none => rw [hpt] at hp; simp [optTruthy] at hp
      | some p =>
        rw [hpt] at hp
        have hpne : p ≠ [] := by
          simpa [optTruthy, List.isEmpty_iff] using hp
        exact hnewContent ⟨newId, some p, none, some p⟩ rfl rfl hpne
  · rw [if_neg hcond]
    dsimp only
    intro it hit hsucc
    dsimp only at hit
    rcases List.mem_append.mp hit with hold | hnew
    · obtain ⟨hc, hf⟩ := hInv it hold hsucc
      exact ⟨contentHasText_append hc, hf⟩
    · have hit' : it = ⟨newId, userId, ItemStatus.queued, none, ItemSourceType.url,
          req.url, none, none, now, now⟩ := by simpa using hnew
      subst hit'
      simp at hsucc

/-- C2 for `patch_item_text` (committed or rejected). -/
theorem succeededInv_patch (itemId userId : Nat) (p : PyStr) (now : Nat) (db : DB)
    (hInv : SucceededInv db) (hp : p ≠ []) :
    SucceededInv (match patch_item_text itemId userId p now db with
      | Except.ok db' => db'
      | Except.error _ => db) := by
  unfold patch_item_text
  cases hfind : db.items.find? (fun it => it.id == itemId && it.userId == userId) with
  | none => exact hInv
  | some item0 =>
    dsimp only
    by_cases hst : item0.status ≠ ItemStatus.needs_user_text
    · rw [if_pos hst]
      exact hInv
    · rw [if_neg hst]
      dsimp only
      intro it hit hsucc
      obtain ⟨y, hy, hxy⟩ := mem_updateItem_items hit
      rw [items_setContent] at hy
      by_cases hyj : (y.id == itemId) = true
      · rw [if_pos hyj] at hxy
        subst hxy
        refine ⟨?_, by simp⟩
        have hyid : y.id = itemId := by simpa using hyj
        dsimp only
        rw [hyid]
        have hself := getContent_setContent_self db itemId
          (fun c => { c with userPastedText := some p, canonicalText := some p })
          (fun _ => rfl)
        exact canonicalNonEmpty_of_getContent hself rfl hp
      · rw [if_neg hyj] at hxy
        subst hxy
        obtain ⟨hc, hf⟩ := hInv it hy hsucc
        refine ⟨?_, hf⟩
        have hyid : it.id ≠ itemId := by simpa using hyj
        have hgc := getContent_setContent_ne db itemId
          (fun c => { c with userPastedText := some p, canonicalText := some p })
          (fun _ => rfl) it.id hyid
        exact canonicalNonEmpty_true_of (by rw [getContent_updateItem]; exact hgc) hc

/-- C2 for one `process_item` call. -/
theorem succeededInv_worker (env : WorkerEnv) (cfg : WorkerConfig)
    (now itemId : Nat) (db : DB) (hInv : SucceededInv db) :
    SucceededInv (process_item env cfg now itemId db) := by
  unfold process_item
  cases hfind : db.getItem itemId with
  | none => exact hInv
  | some item =>
    dsimp only
    by_cases hsrc : item.sourceType ≠ ItemSourceType.url
    · rw [if_pos hsrc]; exact hInv
    rw [if_neg hsrc]
    by_cases hst : item.status ≠ ItemStatus.processing
    · rw [if_pos hst]; exact hInv
    rw [if_neg hst]
    by_cases hu : optTruthy item.requestedUrl = true
    · rw [if_neg (by simp [hu])]
      by_cases hok : ((env.fetcher (item.requestedUrl.getD [])).ok &&
          optTruthy (extraction_outcome env cfg
            (env.fetcher (item.requestedUrl.getD []))).1) = true
      · rw [if_pos hok]
        intro it hit hsucc
        obtain ⟨y, hy, hxy⟩ := mem_updateItem_items hit
        rw [items_setContent] at hy
        have hext : optTruthy (extraction_outcome env cfg
            (env.fetcher (item.requestedUrl.getD []))).1 = true := by
          have h := hok
          rw [Bool.and_eq_true] at h
          exact h.2
        by_cases hyj : (y.id == itemId) = true
        · rw [if_pos hyj] at hxy
          subst hxy
          refine ⟨?_, by simp⟩
          have hyid : y.id = itemId := by simpa using hyj
          dsimp only
          rw [hyid]
          cases hext1 : (extraction_outcome env cfg
              (env.fetcher (item.requestedUrl.getD []))).1 with
          | none => rw [hext1] at hext; simp [optTruthy] at hext
          | some t =>
            rw [hext1] at hext
            have htne : t ≠ [] := by
              simpa [optTruthy, List.isEmpty_iff] using hext
            have hself := getContent_setContent_self db itemId
              (fun c => { c with
                extractedText := (extraction_outcome env cfg
                  (env.fetcher (item.requestedUrl.getD []))).1
                canonicalText := (extraction_outcome env cfg
                  (env.fetcher (item.requestedUrl.getD []))).1 })
              (fun _ => rfl)
            rw [hext1] at hself
            exact canonicalNonEmpty_of_getContent hself rfl htne
        · rw [if_neg hyj] at hxy
          subst hxy
          obtain ⟨hc, hf⟩ := hInv it hy hsucc
          refine ⟨?_, hf⟩
          have hyid : it.id ≠ itemId := by simpa using hyj
          have hgc := getContent_setContent_ne db itemId
            (fun c => { c with
              extractedText := (extraction_outcome env cfg
                (env.fetcher (item.requestedUrl.getD []))).1
              canonicalText := (extraction_outcome env cfg
                (env.fetcher (item.requestedUrl.getD []))).1 })
            (fun _ => rfl) it.id hyid
          exact canonicalNonEmpty_true_of
            (by rw [getContent_addAttempt, getContent_updateItem]; exact hgc) hc
      · rw [if_neg hok]
        by_cases hretry : ((classify_failure (env.fetcher (item.requestedUrl.getD []))
              (extraction_outcome env cfg
                (env.fetcher (item.requestedUrl.getD []))).2).2.2 &&
            decide (_get_next_attempt_no db itemId < cfg.maxAttempts)) = true
        · rw [if_pos hretry]
          intro it hit hsucc
          obtain ⟨y, hy, hxy⟩ := mem_updateItem_items hit
          by_cases hyj : (y.id == itemId) = true
          · rw [if_pos hyj] at hxy
            subst hxy
            simp at hsucc
          · rw [if_neg hyj] at hxy
            subst hxy
            exact hInv it hy hsucc
        · rw [if_neg hretry]
          intro it hit hsucc
          obtain ⟨y, hy, hxy⟩ := mem_updateItem_items hit
          by_cases hyj : (y.id == itemId) = true
          · rw [if_pos hyj] at hxy
            subst hxy
            simp at hsucc
          · rw [if_neg hyj] at hxy
            subst hxy
            exact hInv it hy hsucc
    · rw [if_pos (by simp [hu])]
      unfold process_item_missing_link
      intro it hit hsucc
      obtain ⟨y, hy, hxy⟩ := mem_updateItem_items hit
      by_cases hyj : (y.id == itemId) = true
      · rw [if_pos hyj] at hxy
        subst hxy
        simp at hsucc
      · rw [if_neg hyj] at hxy
        subst hxy
        exact hInv it hy hsucc

/-- C2: every committed operation (item creation, text patch, worker
write-back) preserves the invariant that a `succeeded` item has a non-empty
`canonical_text` and a set `final_text_source`. -/
theorem succeeded_invariant_preserved (op : StoreOp) (db : DB)
    (hInv : SucceededInv db) (hval : op.valid db) :
    SucceededInv (op.apply db) := by
  cases op with
  | create req userId newId now =>
    exact succeededInv_create req userId newId now db hInv hval.1 hval.2
  | patchText itemId userId p now =>
    exact succeededInv_patch itemId userId p now db hInv hval.1
  | worker env cfg now itemId =>
    exact succeededInv_worker env cfg now itemId db hInv

/-- Concrete paste-path create operation for the C2 witness. -/
def c2_op : StoreOp := StoreOp.create ⟨none, some (str "Hello"), true⟩ 1 7 5

/-- Witness for C2: creating an immediate-paste item on an empty database
keeps the invariant. -/
theorem succeeded_invariant_preserved_witness :
    SucceededInv (c2_op.apply ⟨[], [], []⟩) :=
  succeeded_invariant_preserved c2_op ⟨[], [], []⟩ (by decide)
    ⟨⟨by decide, by decide, Or.inr (by decide)⟩, rfl⟩

/-! ### C3: terminal items are never modified by a worker tick -/

theorem requeue_item_of_not_processing (cfg : WorkerConfig) (now : Nat) (db : DB)
    (itemId : Nat) (it : ItemRow) (hfind : db.getItem itemId = some it)
    (h : it.status ≠ ItemStatus.processing) :
    (requeue_stale_processing cfg now db).getItem itemId = some it := by
  unfold requeue_stale_processing DB.getItem
  unfold DB.getItem at hfind
  rw [items_find?_map _ (fun x => by split <;> rfl) db.items itemId, hfind]
  have : ¬ (it.status = ItemStatus.processing ∧
      it.updatedAt < now - cfg.staleProcessingMinutes * 60) := by
    intro hcontra
    exact h hcontra.1
  simp [this]

theorem requeue_ids (cfg : WorkerConfig) (now : Nat) (db : DB) :
    (requeue_stale_processing cfg now db).items.map (fun x => x.id) =
      db.items.map (fun x => x.id) := by
  unfold requeue_stale_processing
  dsimp only
  rw [List.map_map]
  apply List.map_congr_left
  intro a _
  dsimp only [Function.comp]
  split <;> rfl

theorem claim_batch_ids_queued (cfg : WorkerConfig) (now : Nat) (db : DB) :
    ∀ j ∈ (claim_batch cfg now db).2,
      ∃ r ∈ db.items, r.id = j ∧ r.status = ItemStatus.queued := by
  intro j hj
  unfold claim_batch at hj
  dsimp only at hj
  simp only [List.mem_map] at hj
  obtain ⟨r, hr, hrid⟩ := hj
  have hr1 : r ∈ (db.items.filter (fun it =>
      decide (it.status = ItemStatus.queued ∧
        it.sourceType = ItemSourceType.url))).mergeSort
          (fun a b => decide (a.createdAt ≤ b.createdAt)) :=
    List.mem_of_mem_take hr
  rw [List.mem_mergeSort] at hr1
  have hr2 := List.mem_filter.mp hr1
  refine ⟨r, hr2.1, hrid, ?_⟩
  have := hr2.2
  rw [decide_eq_true_eq] at this
  exact this.1

theorem claim_batch_getItem_not_claimed (cfg : WorkerConfig) (now : Nat) (db : DB)
    (itemId : Nat) (it : ItemRow) (hfind : db.getItem itemId = some it)
    (hnc : itemId ∉ (claim_batch cfg now db).2) :
    (claim_batch cfg now db).1.getItem itemId = some it := by
  unfold claim_batch
  unfold claim_batch at hnc
  dsimp only at hnc ⊢
  unfold DB.getItem
  unfold DB.getItem at hfind
  rw [items_find?_map _ (fun x => by split <;> rfl) db.items itemId, hfind]
  have hid : it.id = itemId := find?_id_eq hfind
  have hni : ¬ (it.id ∈ (((db.items.filter (fun it =>
      decide (it.status = ItemStatus.queued ∧
        it.sourceType = ItemSourceType.url))).mergeSort
          (fun a b => decide (a.createdAt ≤ b.createdAt))).take
            cfg.batchSize).map (fun it => it.id)) := by
    rw [hid]
    exact hnc
  dsimp only [Option.map]
  rw [if_neg hni]

theorem process_item_preserve_ne (env : WorkerEnv) (cfg : WorkerConfig)
    (now j : Nat) (db : DB) (i : Nat) (hij : i ≠ j) :
    (process_item env cfg now j db).getItem i = db.getItem i ∧
    (process_item env cfg now j db).getContent i = db.getContent i := by
  unfold process_item
  cases hfind : db.getItem j with
  | none => exact ⟨rfl, rfl⟩
  | some item =>
    dsimp only
    by_cases hsrc : item.sourceType ≠ ItemSourceType.url
    · rw [if_pos hsrc]; exact ⟨rfl, rfl⟩
    rw [if_neg hsrc]
    by_cases hst : item.status ≠ ItemStatus.processing
    · rw [if_pos hst]; exact ⟨rfl, rfl⟩
    rw [if_neg hst]
    by_cases hu : optTruthy item.requestedUrl = true
    · rw [if_neg (by simp [hu])]
      by_cases hok : ((env.fetcher (item.requestedUrl.getD [])).ok &&
          optTruthy (extraction_outcome env cfg
            (env.fetcher (item.requestedUrl.getD []))).1) = true
      · rw [if_pos hok]
        constructor
        · rw [getItem_addAttempt, getItem_updateItem_ne, getItem_setContent]
          · intro x; rfl
          · exact hij
        · rw [getContent_addAttempt, getContent_updateItem, getContent_setContent_ne]
          · intro x; rfl
          · exact hij
      · rw [if_neg hok]
        by_cases hretry : ((classify_failure (env.fetcher (item.requestedUrl.getD []))
              (extraction_outcome env cfg
                (env.fetcher (item.requestedUrl.getD []))).2).2.2 &&
            decide (_get_next_attempt_no db j < cfg.maxAttempts)) = true
        · rw [if_pos hretry]
          refine ⟨?_, rfl⟩
          rw [getItem_updateItem_ne, getItem_addAttempt]
          · intro x; rfl
          · exact hij
        · rw [if_neg hretry]
          refine ⟨?_, rfl⟩
          rw [getItem_updateItem_ne, getItem_addAttempt]
          · intro x; rfl
          · exact hij
    · rw [if_pos (by simp [hu])]
      unfold process_item_missing_link
      refine ⟨?_, rfl⟩
      rw [getItem_updateItem_ne, getItem_addAttempt]
      · intro x; rfl
      · exact hij

theorem internal_error_handler_preserve_ne (now : Nat) (msg : PyStr) (j : Nat)
    (db : DB) (i : Nat) (hij : i ≠ j) :
    (internal_error_handler now msg j db).getItem i = db.getItem i ∧
    (internal_error_handler now msg j db).getContent i = db.getContent i := by
  unfold internal_error_handler
  cases hfind : db.getItem j with
  | none => exact ⟨rfl, rfl⟩
  | some item =>
    dsimp only
    refine ⟨?_, rfl⟩
    rw [getItem_updateItem_ne, getItem_addAttempt]
    · intro x; rfl
    · exact hij

theorem fold_process_preserve (env : WorkerEnv) (cfg : WorkerConfig) (now : Nat)
    (crashes : Nat → Bool) (msg : PyStr) (ids : List Nat) (i : Nat)
    (hids : ∀ j ∈ ids, j ≠ i) (db : DB) :
    ((ids.foldl (fun d k => if crashes k then internal_error_handler now msg k d
        else process_item env cfg now k d) db).getItem i = db.getItem i) ∧
    ((ids.foldl (fun d k => if crashes k then internal_error_handler now msg k d
        else process_item env cfg now k d) db).getContent i = db.getContent i) := by
  induction ids generalizing db with
  | nil => exact ⟨rfl, rfl⟩
  | cons j t ih =>
    simp only [List.foldl_cons]
    have hj : i ≠ j := fun h => hids j (by simp) h.symm
    have hstep : ((if crashes j then internal_error_handler now msg j db
        else process_item env cfg now j db).getItem i = db.getItem i) ∧
        ((if crashes j then internal_error_handler now msg j db
          else process_item env cfg now j db).getContent i = db.getContent i) := by
      by_cases hc : crashes j = true
      · rw [if_pos hc]
        exact internal_error_handler_preserve_ne now msg j db i hj
      · rw [if_neg hc]
        exact process_item_preserve_ne env cfg now j db i hj
    have hrec := ih (fun k hk => hids k (by simp [hk]))
      (if crashes j then internal_error_handler now msg j db
       else process_item env cfg now j db)
    exact ⟨hrec.1.trans hstep.1, hrec.2.trans hstep.2⟩

/-- C3: an item whose status is `succeeded` or `failed` is never modified by a
subsequent worker tick — stale recovery touches only `processing` items, the
claim selects only `queued` url items, and the per-item processing (including
the internal-error handler) writes only to the claimed ids.  Both the item row
and its content row are preserved exactly. -/
theorem terminal_items_not_modified (env : WorkerEnv) (cfg : WorkerConfig)
    (now : Nat) (crashes : Nat → Bool) (msg : PyStr) (db : DB) (itemId : Nat)
    (it : ItemRow) (hnodup : (db.items.map (fun x => x.id)).Nodup)
    (hfind : db.getItem itemId = some it)
    (hterm : it.status = ItemStatus.succeeded ∨ it.status = ItemStatus.failed) :
    (_claim_and_process_batch env cfg now crashes msg db).getItem itemId = some it ∧
    (_claim_and_process_batch env cfg now crashes msg db).getContent itemId =
      db.getContent itemId := by
  have hnp : it.status ≠ ItemStatus.processing := by
    rcases hterm with h | h <;> simp [h]
  have hnq : it.status ≠ ItemStatus.queued := by
    rcases hterm with h | h <;> simp [h]
  have h1 : (requeue_stale_processing cfg now db).getItem itemId = some it :=
    requeue_item_of_not_processing cfg now db itemId it hfind hnp
  have h1nodup : ((requeue_stale_processing cfg now db).items.map
      (fun x => x.id)).Nodup := by
    rw [requeue_ids]
    exact hnodup
  have hnc : itemId ∉ (claim_batch cfg now (requeue_stale_processing cfg now db)).2 := by
    intro hmem
    obtain ⟨r, hr, hrid, hrq⟩ :=
      claim_batch_ids_queued cfg now (requeue_stale_processing cfg now db) itemId hmem
    have hit1 : it ∈ (requeue_stale_processing cfg now db).items := by
      have := h1
      unfold DB.getItem at this
      exact List.mem_of_find?_eq_some this
    have hitid : it.id = itemId := by
      have := h1
      unfold DB.getItem at this
      exact find?_id_eq this
    have hre : r = it :=
      List.inj_on_of_nodup_map h1nodup hr hit1 (by rw [hrid, hitid])
    rw [hre] at hrq
    exact hnq hrq
  have h2 : (claim_batch cfg now (requeue_stale_processing cfg now db)).1.getItem
      itemId = some it :=
    claim_batch_getItem_not_claimed cfg now _ itemId it h1 hnc
  have hfold := fold_process_preserve env cfg now crashes msg
    (claim_batch cfg now (requeue_stale_processing cfg now db)).2 itemId
    (fun j hj h => hnc (h ▸ hj))
    (claim_batch cfg now (requeue_stale_processing cfg now db)).1
  unfold _claim_and_process_batch
  refine ⟨hfold.1.trans h2, hfold.2.trans ?_⟩
  rfl

/-- Concrete database for the C3 witness: a succeeded item and a queued url
item. -/
def c3_db : DB :=
  ⟨[⟨1, 1, ItemStatus.succeeded, none, ItemSourceType.pasted_text, none,
      some ItemFinalTextSource.user_pasted_text, none, 0, 0⟩,
    ⟨2, 1, ItemStatus.queued, none, ItemSourceType.url,
      some (str "http://e.com/a"), none, none, 0, 0⟩],
   [⟨1, some (str "Hello"), none, some (str "Hello")⟩], []⟩

/-- Witness for C3: a full tick (which claims and processes item 2) leaves
the succeeded item 1 untouched. -/
theorem terminal_items_not_modified_witness :
    (_claim_and_process_batch c1_env default_worker_config 99 (fun _ => false)
        [] c3_db).getItem 1 =
      some ⟨1, 1, ItemStatus.succeeded, none, ItemSourceType.pasted_text, none,
        some ItemFinalTextSource.user_pasted_text, none, 0, 0⟩ ∧
    (_claim_and_process_batch c1_env default_worker_config 99 (fun _ => false)
        [] c3_db).getContent 1 = c3_db.getContent 1 :=
  terminal_items_not_modified c1_env default_worker_config 99 (fun _ => false)
    [] c3_db 1
    ⟨1, 1, ItemStatus.succeeded, none, ItemSourceType.pasted_text, none,
      some ItemFinalTextSource.user_pasted_text, none, 0, 0⟩
    (by decide) rfl (Or.inl rfl)

/-! ### C7: keyset pagination -/

theorem lexLt_irrefl (a : Nat × Nat) : ¬ lexLt a a := by
  unfold lexLt; omega

theorem lexLt_asymm {a b : Nat × Nat} (h : lexLt a b) : ¬ lexLt b a := by
  unfold lexLt at *; omega

theorem lexLt_trans {a b c : Nat × Nat} (h1 : lexLt a b) (h2 : lexLt b c) :
    lexLt a c := by
  unfold lexLt at *; omega

theorem lexLt_total {a b : Nat × Nat} (h : a ≠ b) : lexLt a b ∨ lexLt b a := by
  obtain ⟨a1, a2⟩ := a
  obtain ⟨b1, b2⟩ := b
  have h2 : ¬ (a1 = b1 ∧ a2 = b2) := by
    intro hc
    exact h (by rw [hc.1, hc.2])
  unfold lexLt
  dsimp only
  omega

theorem orderDesc_trans (a b c : ItemRow) (h1 : orderDesc a b) (h2 : orderDesc b c) :
    orderDesc a c := by
  unfold orderDesc at *
  simp only [Bool.not_eq_true', decide_eq_false_iff_not] at h1 h2 ⊢
  unfold lexLt at *
  omega

theorem orderDesc_total (a b : ItemRow) : orderDesc a b || orderDesc b a := by
  unfold orderDesc
  by_cases h : lexLt (itemKey a) (itemKey b)
  · have h2 := lexLt_asymm h
    simp [h, h2]
  · simp [h]

theorem query_sorted_strictDesc (db : DB) (userId : Nat)
    (hnodup : (db.items.map (fun x => x.id)).Nodup) :
    (query_sorted db userId).Pairwise
      (fun a b => lexLt (itemKey b) (itemKey a)) := by
  have hsorted : (query_sorted db userId).Pairwise (fun a b => orderDesc a b) :=
    List.sorted_mergeSort orderDesc_trans orderDesc_total _
  have hsub : List.Sublist (db.items.filter (fun it => it.userId == userId))
      db.items :=
    List.filter_sublist _
  have hidn : ((db.items.filter (fun it => it.userId == userId)).map
      (fun x => x.id)).Nodup :=
    List.Nodup.sublist (List.Sublist.map _ hsub) hnodup
  have hperm : List.Perm (query_sorted db userId)
      (db.items.filter (fun it => it.userId == userId)) :=
    List.mergeSort_perm _ _
  have hqn : ((query_sorted db userId).map (fun x => x.id)).Nodup :=
    ((hperm.map (fun x => x.id)).nodup_iff).mpr hidn
  have hidpair : (query_sorted db userId).Pairwise (fun a b => a.id ≠ b.id) :=
    List.pairwise_map.mp hqn
  have hkeyne : (query_sorted db userId).Pairwise
      (fun a b => itemKey a ≠ itemKey b) :=
    hidpair.imp (fun h hk => h (congrArg Prod.snd hk))
  refine (hsorted.and hkeyne).imp ?_
  intro a b hab
  obtain ⟨h1, h2⟩ := hab
  rcases lexLt_total h2 with h3 | h3
  · exfalso
    unfold orderDesc at h1
    simp only [Bool.not_eq_true', decide_eq_false_iff_not] at h1
    exact h1 h3
  · exact h3

theorem strictDesc_filter_drop (l : List ItemRow)
    (h : l.Pairwise (fun a b => lexLt (itemKey b) (itemKey a))) :
    ∀ (n : Nat), n < l.length →
      l.filter (fun x => decide (lexLt (itemKey x) (itemKey (l.getD n default)))) =
        l.drop (n + 1) := by
  induction l with
  | nil => intro n hn; simp at hn
  | cons a t ih =>
    intro n hn
    have hhead : ∀ b ∈ t, lexLt (itemKey b) (itemKey a) :=
      (List.pairwise_cons.mp h).1
    have htail := (List.pairwise_cons.mp h).2
    cases n with
    | zero =>
      simp only [List.getD_cons_zero]
      rw [List.filter_cons]
      have hpa : decide (lexLt (itemKey a) (itemKey a)) = false := by
        simp [lexLt_irrefl]
      rw [hpa]
      simp only [Bool.false_eq_true, if_false]
      have : t.filter (fun x => decide (lexLt (itemKey x) (itemKey a))) = t :=
        List.filter_eq_self.mpr (fun x hx => by
          simp only [decide_eq_true_eq]
          exact hhead x hx)
      rw [this]
      rfl
    | succ m =>
      simp only [List.getD_cons_succ]
      have hm : m < t.length := by simpa using hn
      have hmem : t.getD m default ∈ t := by
        rw [List.getD_eq_getElem t default hm]
        exact List.getElem_mem hm
      have hgt : lexLt (itemKey (t.getD m default)) (itemKey a) := hhead _ hmem
      have hpa : decide (lexLt (itemKey a) (itemKey (t.getD m default))) = false := by
        simp only [decide_eq_false_iff_not]
        exact lexLt_asymm hgt
      rw [List.filter_cons, hpa]
      simp only [Bool.false_eq_true, if_false]
      rw [ih htail m hm]
      rfl

theorem follow_pages_aux (db : DB) (userId limit : Nat) (hlim : 1 ≤ limit)
    (hsd : (query_sorted db userId).Pairwise
      (fun a b => lexLt (itemKey b) (itemKey a))) :
    ∀ (fuel : Nat) (cursor : Option (Nat × Nat)),
      1 ≤ fuel →
      (cursor_filtered db userId cursor).length ≤ fuel * limit →
      follow_pages db userId limit fuel cursor = cursor_filtered db userId cursor := by
  intro fuel
  induction fuel with
  | zero => intro cursor h0 _; omega
  | succ fuel ih =>
    intro cursor _ hlen
    have hsdl : (cursor_filtered db userId cursor).Pairwise
        (fun a b => lexLt (itemKey b) (itemKey a)) := by
      cases cursor with
      | none => exact hsd
      | some c => exact List.Pairwise.sublist (List.filter_sublist _) hsd
    unfold follow_pages list_items
    dsimp only
    by_cases hle : (cursor_filtered db userId cursor).length ≤ limit
    · rw [List.take_of_length_le (by omega)]
      rw [if_neg (by omega)]
    · push_neg at hle
      have htklen : ((cursor_filtered db userId cursor).take (limit + 1)).length =
          limit + 1 := by
        rw [List.length_take]; omega
      rw [if_pos (by rw [htklen]; omega)]
      dsimp only
      have hgetD : ((cursor_filtered db userId cursor).take (limit + 1)).getD
          (limit - 1) default = (cursor_filtered db userId cursor).getD
            (limit - 1) default := by
        have h1 : limit - 1 < limit + 1 := by omega
        have h2 : limit - 1 < ((cursor_filtered db userId cursor).take
            (limit + 1)).length := by omega
        have h3 : limit - 1 < (cursor_filtered db userId cursor).length := by omega
        have hopt : ((cursor_filtered db userId cursor).take (limit + 1))[limit - 1]? =
            (cursor_filtered db userId cursor)[limit - 1]? := by
          rw [List.getElem?_take, if_pos h1]
        rw [List.getElem?_eq_getElem h2, List.getElem?_eq_getElem h3] at hopt
        rw [List.getD_eq_getElem _ default h2, List.getD_eq_getElem _ default h3]
        exact Option.some.inj hopt
      rw [hgetD]
      have hmemD : (cursor_filtered db userId cursor).getD (limit - 1) default ∈
          cursor_filtered db userId cursor := by
        have h3 : limit - 1 < (cursor_filtered db userId cursor).length := by omega
        rw [List.getD_eq_getElem _ default h3]
        exact List.getElem_mem h3
      have hdrop : cursor_filtered db userId
          (some (itemKey ((cursor_filtered db userId cursor).getD (limit - 1)
            default))) = (cursor_filtered db userId cursor).drop limit := by
        have hfd := strictDesc_filter_drop (cursor_filtered db userId cursor) hsdl
          (limit - 1) (by omega)
        have hl1 : limit - 1 + 1 = limit := by omega
        rw [hl1] at hfd
        cases hcur : cursor with
        | none =>
          rw [hcur] at hfd
          exact hfd
        | some c0 =>
          rw [hcur] at hfd hmemD
          have hrw : ∀ c, cursor_filtered db userId (some c) =
              (query_sorted db userId).filter
                (fun x => decide (lexLt (itemKey x) c)) := fun _ => rfl
          simp only [hrw] at hfd hmemD ⊢
          have hcc0 : lexLt (itemKey (((query_sorted db userId).filter
              (fun x => decide (lexLt (itemKey x) c0))).getD (limit - 1) default))
              c0 := by
            have h2 := (List.mem_filter.mp hmemD).2
            rwa [decide_eq_true_eq] at h2
          rw [List.filter_filter] at hfd
          rw [← hfd]
          apply List.filter_congr
          intro x _
          cases hx : decide (lexLt (itemKey x)
              (itemKey (((query_sorted db userId).filter
                (fun x => decide (lexLt (itemKey x) c0))).getD (limit - 1)
                  default))) with
          | false => simp [hx]
          | true =>
            have hx0 : lexLt (itemKey x) c0 :=
              lexLt_trans (of_decide_eq_true hx) hcc0
            simp [hx, hx0]
      have hf1 : 1 ≤ fuel := by
        rcases Nat.eq_zero_or_pos fuel with h | h
        · subst h
          simp at hlen
          omega
        · exact h
      have hlen2 : (cursor_filtered db userId
          (some (itemKey ((cursor_filtered db userId cursor).getD (limit - 1)
            default)))).length ≤ fuel * limit := by
        rw [hdrop, List.length_drop]
        rw [Nat.succ_mul] at hlen
        omega
      rw [ih _ hf1 hlen2, hdrop]
      rw [List.take_take]
      have hmin : min limit (limit + 1) = limit := by omega
      rw [hmin, List.take_append_drop]

/-- C7: for a fixed set of a user's items (distinct ids), following
`next_cursor` page by page concatenates to exactly the single query ordered by
`(created_at DESC, id DESC)` — no duplicates, no gaps; each page has at most
`limit` entries; `next_cursor` is emitted iff more rows exist beyond the page,
and it is the `(created_at, id)` key of the last returned row. -/
theorem list_items_keyset_pagination (db : DB) (userId limit fuel : Nat)
    (hnodup : (db.items.map (fun x => x.id)).Nodup)
    (hlim : 1 ≤ limit) (hfuel1 : 1 ≤ fuel)
    (hfuel : db.items.length ≤ fuel * limit) :
    follow_pages db userId limit fuel none = query_sorted db userId ∧
    (∀ cursor, (list_items db userId limit cursor).1.length ≤ limit) ∧
    (∀ cursor, ((list_items db userId limit cursor).2 = none ↔
      (cursor_filtered db userId cursor).length ≤ limit)) ∧
    (∀ cursor c, (list_items db userId limit cursor).2 = some c →
      ((list_items db userId limit cursor).1.getLast?).map itemKey = some c) := by
  have hsd := query_sorted_strictDesc db userId hnodup
  refine ⟨?_, ?_, ?_, ?_⟩
  · apply follow_pages_aux db userId limit hlim hsd fuel none hfuel1
    show (query_sorted db userId).length ≤ fuel * limit
    have hq : (query_sorted db userId).length ≤ db.items.length := by
      unfold query_sorted
      rw [List.length_mergeSort]
      exact List.length_filter_le _ _
    omega
  · intro cursor
    unfold list_items
    dsimp only
    by_cases h : ((cursor_filtered db userId cursor).take (limit + 1)).length > limit
    · rw [if_pos h]
      dsimp only
      rw [List.length_take, List.length_take]
      omega
    · rw [if_neg h]
      dsimp only
      omega
  · intro cursor
    unfold list_items
    dsimp only
    by_cases h : ((cursor_filtered db userId cursor).take (limit + 1)).length > limit
    · rw [if_pos h]
      dsimp only
      rw [List.length_take] at h
      constructor
      · intro hc
        exact absurd hc (by simp)
      · intro hc
        omega
    · rw [if_neg h]
      dsimp only
      rw [List.length_take] at h
      constructor
      · intro _
        omega
      · intro _
        rfl
  · intro cursor c hc
    unfold list_items at hc ⊢
    dsimp only at hc ⊢
    by_cases h : ((cursor_filtered db userId cursor).take (limit + 1)).length > limit
    · rw [if_pos h] at hc ⊢
      dsimp only at hc ⊢
      have hceq : c = itemKey (((cursor_filtered db userId cursor).take
          (limit + 1)).getD (limit - 1) default) := (Option.some.inj hc).symm
      rw [hceq]
      have hrows : ((cursor_filtered db userId cursor).take (limit + 1)).length =
          limit + 1 := by
        rw [List.length_take] at h ⊢
        omega
      have hlen2 : ((((cursor_filtered db userId cursor).take (limit + 1))).take
          limit).length = limit := by
        rw [List.length_take, hrows]
        omega
      rw [List.getLast?_eq_getElem?, hlen2]
      rw [List.getElem?_take, if_pos (by omega : limit - 1 < limit)]
      have h3 : limit - 1 < ((cursor_filtered db userId cursor).take
          (limit + 1)).length := by
        rw [hrows]
        omega
      rw [List.getElem?_eq_getElem h3]
      rw [List.getD_eq_getElem _ default h3]
      rfl
    · rw [if_neg h] at hc
      dsimp only at hc
      simp at hc

/-- Concrete database for the C7 witness: three items of one user. -/
def c7_db : DB :=
  ⟨[⟨1, 1, ItemStatus.queued, none, ItemSourceType.url, some (str "u1"), none,
      none, 1, 1⟩,
    ⟨2, 1, ItemStatus.queued, none, ItemSourceType.url, some (str "u2"), none,
      none, 2, 2⟩,
    ⟨3, 1, ItemStatus.queued, none, ItemSourceType.url, some (str "u3"), none,
      none, 3, 3⟩], [], []⟩

/-- Witness for C7: following pages of size 1 over three items reproduces the
full descending query. -/
theorem list_items_keyset_pagination_witness :
    follow_pages c7_db 1 1 4 none = query_sorted c7_db 1 :=
  (list_items_keyset_pagination c7_db 1 1 4 (by decide) (by decide) (by decide)
    (by decide)).1

end Nudge
